import Mathlib

/-!
Verification of the run-orchestration and streaming core of the
market-intelligence pipeline (`src/market_intel.py`, `src/app.py`).

The agent stages, the defensive JSON extraction, the pipeline executor and
the run registry are shallowly embedded as Lean functions.  The two external
collaborators (the search service and the reasoning service) are modelled as
an `Oracle`: the search call returns an arbitrary `Except`-value, and each
reasoning call returns an arbitrary `Except`-value indexed by the number of
reasoning calls made so far in the run (this captures every possible
behaviour of the external service within a single run).

Python strings are modelled as Lean `String`s and the relevant Python
primitives (`str.strip`, slicing, `json.loads`, `json.dumps`, `dict.get`,
iteration, `str.join`) are translated below.  Exceptions are modelled with
`Except PyErr`; the event queue of a run is a FIFO list of
`Option Event` values in which `none` is the end-of-stream sentinel that
`_run_pipeline` pushes in its `finally` block.
-/

/-- Whitespace characters stripped by Python's `str.strip()` (the set of
characters for which `str.isspace()` holds). -/
def pyIsSpace (c : Char) : Bool :=
  c.toNat = 0x09 || c.toNat = 0x0A || c.toNat = 0x0B || c.toNat = 0x0C ||
  c.toNat = 0x0D || c.toNat = 0x1C || c.toNat = 0x1D || c.toNat = 0x1E ||
  c.toNat = 0x1F || c.toNat = 0x20 || c.toNat = 0x85 || c.toNat = 0xA0 ||
  c.toNat = 0x1680 || (0x2000 ≤ c.toNat && c.toNat ≤ 0x200A) ||
  c.toNat = 0x2028 || c.toNat = 0x2029 || c.toNat = 0x202F ||
  c.toNat = 0x205F || c.toNat = 0x3000

/-- Python `str.strip()` with no arguments: remove leading and trailing
whitespace characters. -/
def pyStrip (s : String) : String :=
  ⟨((s.data.dropWhile pyIsSpace).reverse.dropWhile pyIsSpace).reverse⟩

/-- Python slicing `s[:n]` (by characters). -/
def strTake (n : Nat) (s : String) : String := ⟨s.data.take n⟩

/-- Python slicing `s[n:]` (by characters). -/
def strDrop (n : Nat) (s : String) : String := ⟨s.data.drop n⟩

/-- Python slicing `s[:-n]` for `n ≤ len(s)` (by characters). -/
def strDropEnd (n : Nat) (s : String) : String := ⟨s.data.take (s.data.length - n)⟩

/-- Python `s.startswith(p)`. -/
def strStartsWith (s p : String) : Bool := p.data.isPrefixOf s.data

/-- Python `s.endswith(p)`. -/
def strEndsWith (s p : String) : Bool := p.data.reverse.isPrefixOf s.data.reverse

/-- Python `sep.join(parts)` for a list of strings. -/
def strJoin (sep : String) : List String → String
  | [] => ""
  | [x] => x
  | x :: xs => x ++ sep ++ strJoin sep xs

/-- The exception classes that can arise in the modelled code.
`jsonDecode` models `json.JSONDecodeError` (a subclass of `ValueError`);
`attributeError` and `typeError` model `AttributeError`/`TypeError`,
which are *not* caught by `except (json.JSONDecodeError, ValueError)`;
`other` models any further exception (network failures etc.). -/
inductive PyErr where
  | jsonDecode (msg : String)
  | attributeError (msg : String)
  | typeError (msg : String)
  | other (msg : String)
deriving DecidableEq, Repr

/-- Whether `except (json.JSONDecodeError, ValueError)` catches the error. -/
def PyErr.isValueError : PyErr → Bool
  | .jsonDecode _ => true
  | _ => false

/-- The message used when the exception is interpolated into an f-string. -/
def PyErr.msg : PyErr → String
  | .jsonDecode m => m
  | .attributeError m => m
  | .typeError m => m
  | .other m => m

/-- The values produced by `json.loads`.  Numeric literals are kept as their
lexeme (the pipeline never computes with numbers; only the decision
structure — does the text parse, and what shape does it have — matters). -/
inductive Json where
  | null
  | bool (b : Bool)
  | num (lexeme : String)
  | str (s : String)
  | arr (elems : List Json)
  | obj (fields : List (String × Json))

/-- Python `dict(pairs)` semantics for the pairs of a parsed JSON object:
a repeated key keeps its first position but is updated to the later value. -/
def dictInsert : List (String × Json) → String × Json → List (String × Json)
  | [], p => [p]
  | (k, v) :: rest, (k2, v2) =>
      if k = k2 then (k, v2) :: rest else (k, v) :: dictInsert rest (k2, v2)

/-- Build a Python dict from a pair list (later bindings win). -/
def pyDict (ps : List (String × Json)) : List (String × Json) :=
  ps.foldl dictInsert []

/-- Python `x.get(key, default)`: only dicts have `.get`; on any other value
an `AttributeError` is raised. -/
def pyGet (j : Json) (key : String) (default : Json) : Except PyErr Json :=
  match j with
  | .obj kvs =>
      match kvs.lookup key with
      | some v => .ok v
      | none => .ok default
  | _ => .error (.attributeError "object has no attribute get")

/-- Python iteration over a value (`for x in v`): lists yield their elements,
strings their characters, dicts their keys; other values raise `TypeError`. -/
def pyIter (j : Json) : Except PyErr (List Json) :=
  match j with
  | .arr xs => .ok xs
  | .str s => .ok (s.data.map fun c => Json.str ⟨[c]⟩)
  | .obj kvs => .ok (kvs.map fun kv => Json.str kv.1)
  | _ => .error (.typeError "object is not iterable")

/-- Approximation of Python `repr` for strings (used only inside log lines
interpolating non-string structured values). -/
def pyReprStr (s : String) : String := "'" ++ s ++ "'"

mutual

/-- Approximation of Python `repr(v)` (container elements are rendered with
`repr`, so strings inside containers are quoted). -/
def pyStrElem : Json → String
  | .str s => pyReprStr s
  | .null => "None"
  | .bool true => "True"
  | .bool false => "False"
  | .num lexeme => lexeme
  | .arr xs => "[" ++ pyStrList xs ++ "]"
  | .obj kvs => "\x7b" ++ pyStrPairs kvs ++ "\x7d"

/-- Comma-joined reprs of list elements. -/
def pyStrList : List Json → String
  | [] => ""
  | [x] => pyStrElem x
  | x :: xs => pyStrElem x ++ ", " ++ pyStrList xs

/-- Comma-joined `key: value` reprs of dict entries. -/
def pyStrPairs : List (String × Json) → String
  | [] => ""
  | [(k, v)] => pyReprStr k ++ ": " ++ pyStrElem v
  | (k, v) :: rest => pyReprStr k ++ ": " ++ pyStrElem v ++ ", " ++ pyStrPairs rest

end

/-- Python `str(v)` as used by f-string interpolation of a decoded value. -/
def pyStr : Json → String
  | .str s => s
  | j => pyStrElem j

/-- Python `sep.join(v)`: iterate `v`; every element must be a string,
otherwise a `TypeError` is raised. -/
def pyJoin (sep : String) (j : Json) : Except PyErr String := do
  let items ← pyIter j
  let strs ← items.mapM fun it =>
    match it with
    | Json.str s => Except.ok s
    | _ => Except.error (PyErr.typeError "sequence item: expected str instance")
  pure (strJoin sep strs)

/-- JSON whitespace skipped by the decoder: space, tab, newline, carriage
return (Python `json`'s `_w` regex `[ \t\n\r]*`). -/
def jsonWs (c : Char) : Bool := c = ' ' || c = '\t' || c = '\n' || c = '\r'

/-- Skip JSON whitespace. -/
def skipWs (cs : List Char) : List Char := cs.dropWhile jsonWs

/-- Hex digit value (both cases accepted, as in `\uXXXX` escapes). -/
def hexVal (c : Char) : Option Nat :=
  if 48 ≤ c.toNat ∧ c.toNat ≤ 57 then some (c.toNat - 48)
  else if 97 ≤ c.toNat ∧ c.toNat ≤ 102 then some (c.toNat - 87)
  else if 65 ≤ c.toNat ∧ c.toNat ≤ 70 then some (c.toNat - 55)
  else none

/-- Prepend a decoded character to the result of a string scan. -/
def scanCons (c : Char) : Except String (List Char × List Char) →
    Except String (List Char × List Char)
  | .ok (cs, rest) => .ok (c :: cs, rest)
  | .error e => .error e

/-- Decode four hex digits at the start of the input, if present. -/
def hex4At (cs : List Char) : Option Nat :=
  match cs with
  | h1 :: h2 :: h3 :: h4 :: _ =>
    match hexVal h1, hexVal h2, hexVal h3, hexVal h4 with
    | some a, some b, some c, some d => some (a * 4096 + b * 256 + c * 16 + d)
    | _, _, _, _ => none
  | _ => none

/-- After a high surrogate `\uXXXX` escape: if the input continues with a
low-surrogate escape `\uYYYY`, return its value. -/
def pairLow (cs : List Char) : Option Nat :=
  match cs with
  | '\\' :: 'u' :: rest =>
    match hex4At rest with
    | some m => if 0xDC00 ≤ m ∧ m ≤ 0xDFFF then some m else none
    | none => none
  | _ => none

/-- Scan the body of a JSON string literal (the opening quote already
consumed), returning the decoded characters and the remaining input.
Follows Python's strict decoder: the two-character escapes, `\uXXXX`
escapes with surrogate-pair recombination, raw control characters
rejected.  A lone surrogate (which Python would keep as an unpaired
surrogate code unit, unrepresentable in a Lean `String`) is replaced by
U+FFFD; this does not change whether the scan succeeds. -/
def scanStr : List Char → Except String (List Char × List Char)
  | [] => .error "Unterminated string"
  | c :: rest =>
    if c = '"' then .ok ([], rest)
    else if c = '\\' then
      match rest with
      | [] => .error "Unterminated string"
      | e :: rest2 =>
        if e = '"' then scanCons '"' (scanStr rest2)
        else if e = '\\' then scanCons '\\' (scanStr rest2)
        else if e = '/' then scanCons '/' (scanStr rest2)
        else if e = 'b' then scanCons (Char.ofNat 8) (scanStr rest2)
        else if e = 'f' then scanCons (Char.ofNat 12) (scanStr rest2)
        else if e = 'n' then scanCons '\n' (scanStr rest2)
        else if e = 'r' then scanCons '\r' (scanStr rest2)
        else if e = 't' then scanCons '\t' (scanStr rest2)
        else if e = 'u' then
          match hex4At rest2 with
          | none => .error "Invalid uXXXX escape"
          | some n =>
            if 0xD800 ≤ n ∧ n ≤ 0xDBFF then
              match pairLow (rest2.drop 4) with
              | some m =>
                scanCons (Char.ofNat (0x10000 + (n - 0xD800) * 1024 + (m - 0xDC00)))
                  (scanStr (rest2.drop 10))
              | none => scanCons (Char.ofNat 0xFFFD) (scanStr (rest2.drop 4))
            else if 0xDC00 ≤ n ∧ n ≤ 0xDFFF then
              scanCons (Char.ofNat 0xFFFD) (scanStr (rest2.drop 4))
            else scanCons (Char.ofNat n) (scanStr (rest2.drop 4))
        else .error "Invalid escape"
    else if c.toNat < 32 then .error "Invalid control character"
    else scanCons c (scanStr rest)
termination_by cs => cs.length
decreasing_by all_goals simp <;> omega

/-- ASCII digit test. -/
def isDig (c : Char) : Bool := 48 ≤ c.toNat && c.toNat ≤ 57

/-- Scan a JSON number starting at the given position, following the
decoder's regex `-?(0|[1-9][0-9]*)(\.[0-9]+)?([eE][+-]?[0-9]+)?`.
Returns the matched lexeme and the rest, or `none` if no match. -/
def scanNumber (cs : List Char) : Option (List Char × List Char) :=
  let (sign, cs1) :=
    match cs with
    | '-' :: t => (['-'], t)
    | _ => (([] : List Char), cs)
  match cs1 with
  | [] => none
  | c :: t =>
    if ¬ isDig c then none
    else
      let (intDigits, cs2) :=
        if c = '0' then ([c], t)
        else
          let more := t.takeWhile isDig
          (c :: more, t.drop more.length)
      let (fracPart, cs3) :=
        match cs2 with
        | '.' :: t2 =>
          let ds := t2.takeWhile isDig
          if ds.isEmpty then (([] : List Char), cs2)
          else ('.' :: ds, t2.drop ds.length)
        | _ => (([] : List Char), cs2)
      let (expPart, cs4) :=
        match cs3 with
        | e :: t3 =>
          if e = 'e' ∨ e = 'E' then
            let (sgn, t4) :=
              match t3 with
              | '+' :: t5 => (['+'], t5)
              | '-' :: t5 => (['-'], t5)
              | _ => (([] : List Char), t3)
            let ds := t4.takeWhile isDig
            if ds.isEmpty then (([] : List Char), cs3)
            else (e :: sgn ++ ds, t4.drop ds.length)
          else (([] : List Char), cs3)
        | [] => (([] : List Char), cs3)
      some (sign ++ intDigits ++ fracPart ++ expPart, cs4)

/-- Does the list start with the given characters? -/
def startsChars (p cs : List Char) : Bool := p.isPrefixOf cs

mutual

/-- Parse one JSON value (Python `json.scanner.py_make_scanner` semantics,
with the default `NaN`/`Infinity`/`-Infinity` constants accepted).
Leading JSON whitespace is skipped.  `fuel` bounds the recursion depth and
is decremented on every mutual call; `json_loads` supplies more fuel than
any input can consume. -/
def parseVal : Nat → List Char → Except String (Json × List Char)
  | 0, _ => .error "Nesting depth exceeded"
  | fuel + 1, cs =>
    match skipWs cs with
    | [] => .error "Expecting value"
    | c :: rest =>
      if c = '"' then
        match scanStr rest with
        | .ok (body, r) => .ok (.str ⟨body⟩, r)
        | .error e => .error e
      else if c = '[' then
        match skipWs rest with
        | ']' :: r2 => .ok (.arr [], r2)
        | cs2 =>
          match parseElems fuel cs2 with
          | .ok (xs, r) => .ok (.arr xs, r)
          | .error e => .error e
      else if c = Char.ofNat 123 then
        match skipWs rest with
        | cs2 =>
          if cs2.head? = some (Char.ofNat 125) then .ok (.obj [], cs2.tail)
          else
            match parseMembers fuel cs2 with
            | .ok (ps, r) => .ok (.obj (pyDict ps), r)
            | .error e => .error e
      else if c = 't' then
        if startsChars ['r', 'u', 'e'] rest then .ok (.bool true, rest.drop 3)
        else .error "Expecting value"
      else if c = 'f' then
        if startsChars ['a', 'l', 's', 'e'] rest then .ok (.bool false, rest.drop 4)
        else .error "Expecting value"
      else if c = 'n' then
        if startsChars ['u', 'l', 'l'] rest then .ok (.null, rest.drop 3)
        else .error "Expecting value"
      else if c = 'N' then
        if startsChars ['a', 'N'] rest then .ok (.num "NaN", rest.drop 2)
        else .error "Expecting value"
      else if c = 'I' then
        if startsChars ['n', 'f', 'i', 'n', 'i', 't', 'y'] rest then
          .ok (.num "Infinity", rest.drop 7)
        else .error "Expecting value"
      else
        match scanNumber (c :: rest) with
        | some (lexeme, r) => .ok (.num ⟨lexeme⟩, r)
        | none =>
          if c = '-' ∧ startsChars ['I', 'n', 'f', 'i', 'n', 'i', 't', 'y'] rest then
            .ok (.num "-Infinity", rest.drop 8)
          else .error "Expecting value"

/-- Parse the elements of a non-empty JSON array, positioned at the first
element; consumes the closing bracket. -/
def parseElems : Nat → List Char → Except String (List Json × List Char)
  | 0, _ => .error "Nesting depth exceeded"
  | fuel + 1, cs =>
    match parseVal fuel cs with
    | .error e => .error e
    | .ok (v, r) =>
      match skipWs r with
      | ']' :: r2 => .ok ([v], r2)
      | ',' :: r2 =>
        match parseElems fuel r2 with
        | .ok (vs, r3) => .ok (v :: vs, r3)
        | .error e => .error e
      | _ => .error "Expecting delimiter"

/-- Parse the members of a non-empty JSON object, positioned (up to
whitespace) at the first key; consumes the closing brace. -/
def parseMembers : Nat → List Char → Except String (List (String × Json) × List Char)
  | 0, _ => .error "Nesting depth exceeded"
  | fuel + 1, cs =>
    match skipWs cs with
    | '"' :: r =>
      match scanStr r with
      | .error e => .error e
      | .ok (kcs, r1) =>
        match skipWs r1 with
        | ':' :: r2 =>
          match parseVal fuel r2 with
          | .error e => .error e
          | .ok (v, r3) =>
            match skipWs r3 with
            | ',' :: r4 =>
              match parseMembers fuel r4 with
              | .ok (ps, r5) => .ok ((⟨kcs⟩, v) :: ps, r5)
              | .error e => .error e
            | cs4 =>
              if cs4.head? = some (Char.ofNat 125) then .ok ([(⟨kcs⟩, v)], cs4.tail)
              else .error "Expecting delimiter"
        | _ => .error "Expecting colon delimiter"
    | _ => .error "Expecting property name enclosed in double quotes"

end

/-- Python `json.loads`: parse one value, then require only whitespace to
follow.  Any failure is a `json.JSONDecodeError` (a `ValueError`).  The
fuel bound `2 * length + 4` exceeds what any input can consume, since every
two fuel decrements consume at least one input character. -/
def json_loads (s : String) : Except PyErr Json :=
  match parseVal (2 * s.data.length + 4) s.data with
  | .ok (v, rest) =>
      if (skipWs rest).isEmpty then .ok v else .error (.jsonDecode "Extra data")
  | .error e => .error (.jsonDecode e)

/-- Lowercase hex digit, as used by `json.dumps`'s `\uXXXX` escapes. -/
def hexDigit (n : Nat) : Char :=
  if n < 10 then Char.ofNat (48 + n) else Char.ofNat (87 + n)

/-- Four lowercase hex digits of `n < 0x10000`. -/
def hex4 (n : Nat) : List Char :=
  [hexDigit (n / 4096 % 16), hexDigit (n / 256 % 16), hexDigit (n / 16 % 16),
   hexDigit (n % 16)]

/-- Encoding of one character by `json.dumps` with the default
`ensure_ascii=True`: the short escapes, printable ASCII verbatim, and
`\uXXXX` escapes (a surrogate pair for astral characters) otherwise. -/
def escChar (c : Char) : List Char :=
  if c = '"' then ['\\', '"']
  else if c = '\\' then ['\\', '\\']
  else if c = '\n' then ['\\', 'n']
  else if c = '\r' then ['\\', 'r']
  else if c = '\t' then ['\\', 't']
  else if c.toNat = 8 then ['\\', 'b']
  else if c.toNat = 12 then ['\\', 'f']
  else if 0x20 ≤ c.toNat ∧ c.toNat ≤ 0x7E then [c]
  else if c.toNat < 0x10000 then '\\' :: 'u' :: hex4 c.toNat
  else
    '\\' :: 'u' :: hex4 (0xD800 + (c.toNat - 0x10000) / 1024) ++
      '\\' :: 'u' :: hex4 (0xDC00 + (c.toNat - 0x10000) % 1024)

/-- `json.dumps` encoding of a string, with the surrounding quotes. -/
def strLit (s : String) : List Char :=
  '"' :: s.data.foldr (fun c acc => escChar c ++ acc) ['"']

mutual

/-- `json.dumps(v)` with default arguments, as a character list: item
separator `", "`, key separator `": "`, `ensure_ascii=True`.  A `num` is
rendered as its lexeme. -/
def dumpsChars : Json → List Char
  | .null => "null".data
  | .bool true => "true".data
  | .bool false => "false".data
  | .num lexeme => lexeme.data
  | .str s => strLit s
  | .arr xs => '[' :: dumpsList xs ++ [']']
  | .obj kvs => Char.ofNat 123 :: dumpsPairs kvs ++ [Char.ofNat 125]

/-- Array elements joined by `", "`. -/
def dumpsList : List Json → List Char
  | [] => []
  | [x] => dumpsChars x
  | x :: xs => dumpsChars x ++ ',' :: ' ' :: dumpsList xs

/-- Object members `"key": value` joined by `", "`. -/
def dumpsPairs : List (String × Json) → List Char
  | [] => []
  | [(k, v)] => strLit k ++ ':' :: ' ' :: dumpsChars v
  | (k, v) :: rest => strLit k ++ ':' :: ' ' :: dumpsChars v ++ ',' :: ' ' :: dumpsPairs rest

end

/-- Python `json.dumps` with default arguments. -/
def json_dumps (j : Json) : String := ⟨dumpsChars j⟩

/-- The fence-stripping part of `_parse_json` (`market_intel.py` lines
61-70): strip surrounding whitespace, one leading ``` fence with an
optional `json` tag, and one trailing ``` fence. -/
def stripFences (raw : String) : String :=
  let text := pyStrip raw
  let text :=
    if strStartsWith text "```" then
      let t := strDrop 3 text
      let t := if strStartsWith t "json" then strDrop 4 t else t
      pyStrip t
    else text
  if strEndsWith text "```" then pyStrip (strDropEnd 3 text) else text

/-- `_parse_json` (`market_intel.py` lines 56-71): strip markdown fences,
then `json.loads` the remainder. -/
def _parse_json (raw : String) : Except PyErr Json := json_loads (stripFences raw)

/-- The sentinel used by the fallback branches of the three structured
stages. -/
def sentinel : String := "Unable to parse structured output."

/-- The degraded value built by `trend_agent`'s `except` branch
(`market_intel.py` lines 168-172). -/
def trendFallback (raw : String) : Json :=
  .obj [("trends", .arr [.str raw]),
        ("sentiment_shifts", .arr [.str sentinel])]

/-- The degraded value built by `strategy_agent`'s `except` branch
(`market_intel.py` lines 217-221). -/
def strategyFallback (raw : String) : Json :=
  .obj [("opportunities", .arr [.str raw]),
        ("recommendations", .arr [.str sentinel])]

/-- The degraded value built by `risk_agent`'s `except` branch
(`market_intel.py` lines 266-272). -/
def riskFallback (raw : String) : Json :=
  .obj [("risks", .arr [.str raw]),
        ("weak_signals", .arr [.str sentinel]),
        ("uncertainties", .arr [.str sentinel])]

/-- The `try: result = _parse_json(raw) except (json.JSONDecodeError,
ValueError): result = fallback` block of `trend_agent`: errors that are not
`ValueError`s propagate. -/
def trendExtract (raw : String) : Except PyErr Json :=
  match _parse_json raw with
  | .ok r => .ok r
  | .error e => if e.isValueError then .ok (trendFallback raw) else .error e

/-- The extraction block of `strategy_agent`. -/
def strategyExtract (raw : String) : Except PyErr Json :=
  match _parse_json raw with
  | .ok r => .ok r
  | .error e => if e.isValueError then .ok (strategyFallback raw) else .error e

/-- The extraction block of `risk_agent`. -/
def riskExtract (raw : String) : Except PyErr Json :=
  match _parse_json raw with
  | .ok r => .ok r
  | .error e => if e.isValueError then .ok (riskFallback raw) else .error e

/-- One news article produced by the Data stage (`data_agent`'s
`{headline, source, summary}` dicts). -/
structure Article where
  headline : String
  source : String
  summary : String
deriving DecidableEq, Repr

/-- One raw search hit, per the search-service contract (`resp.json()`'s
`results` entries); each field may be absent. -/
structure Hit where
  title : Option String
  url : Option String
  content : Option String
  snippet : Option String
deriving DecidableEq, Repr

/-- The structured report dict built by `_run_pipeline` (`app.py` lines
80-87) and carried by the `done` event. -/
structure Report where
  topic : String
  articles : List Article
  trends : Json
  strategy : Json
  risks : Json
  voice_script : Option String

/-- A typed event on a run's channel: `log`, `error` or `done`
(the three SSE event kinds emitted by `_run_pipeline`). -/
inductive Event where
  | log (msg : String)
  | error (msg : String)
  | done (report : Report)

/-- Executor-side state threaded through a run: the FIFO list of events
written to the run's queue so far, and the number of reasoning-service
calls made so far. -/
structure PipeState where
  events : List Event
  chatCalls : Nat

/-- The two external collaborators, modelled as arbitrary outcomes: the
search call's result, and the reasoning service's response to its `i`-th
call of the run.  An `Except.error` models a raised exception (network
failure etc.). -/
structure Oracle where
  search : Except PyErr (List Hit)
  chats : Nat → Except PyErr String

/-- The executor monad: state threading plus Python-style exceptions.
Events written before an exception stay in the queue. -/
def EmitM (α : Type) : Type := PipeState → Except PyErr α × PipeState

/-- Monadic bind for `EmitM`. -/
def EmitM.bind (m : EmitM α) (f : α → EmitM β) : EmitM β := fun st =>
  match m st with
  | (.ok a, st1) => f a st1
  | (.error e, st1) => (.error e, st1)

instance : Monad EmitM where
  pure a := fun st => (.ok a, st)
  bind := EmitM.bind

/-- Append one event to the run's queue (the executor's `q.put(_sse(...))`;
inside the agents, the `emit` callback handed to every stage). -/
def emitEvent (ev : Event) : EmitM Unit := fun st =>
  (.ok (), { st with events := st.events ++ [ev] })

/-- A stage's `log`/`emit` of one progress line. -/
def emitLog (msg : String) : EmitM Unit := emitEvent (.log msg)

/-- Run an exception-throwing Python expression inside the executor. -/
def liftE (r : Except PyErr α) : EmitM α := fun st => (r, st)

/-- `_chat` (`market_intel.py` lines 44-53): one reasoning-service call; the
response text is stripped.  The response is taken from the oracle at the
current call index (the prompts, built faithfully at each call site, do not
constrain the modelled external service). -/
def _chat (o : Oracle) ( _system _user : String) : EmitM String := fun st =>
  match o.chats st.chatCalls with
  | .ok s => (.ok (pyStrip s), { st with chatCalls := st.chatCalls + 1 })
  | .error e => (.error e, { st with chatCalls := st.chatCalls + 1 })

/-- `MAX_ARTICLES` (`market_intel.py` line 34). -/
def MAX_ARTICLES : Nat := 5

/-- The per-article summarisation loop of `data_agent` (`market_intel.py`
lines 109-126): one reasoning call per hit, one `  ✔` log per article,
articles collected in hit order. -/
def dataLoop (o : Oracle) : List Hit → EmitM (List Article)
  | [] => pure []
  | item :: rest => do
    let headline := item.title.getD "No title"
    let source := item.url.getD "Unknown source"
    let content := (item.content.getD (item.snippet.getD ""))
    let summary ← _chat o
      "You are a concise financial news analyst. Summarise the article in one sentence."
      ("Article title: " ++ headline ++ "\n\nContent: " ++ strTake 1500 content)
    emitLog ("  ✔ " ++ strTake 80 headline)
    let tail ← dataLoop o rest
    pure ((⟨headline, source, summary⟩ : Article) :: tail)

/-- `data_agent` (`market_intel.py` lines 79-127): search, then summarise
the first `MAX_ARTICLES` hits; empty search yields `[]` after a warning
log. -/
def data_agent (o : Oracle) (topic : String) : EmitM (List Article) := do
  emitLog ("[Data Agent] 🔍 Searching news for: '" ++ topic ++ "' ...")
  let raw_results ← liftE o.search
  if raw_results.isEmpty then do
    emitLog "[Data Agent] ⚠️  No results returned from Tavily."
    pure []
  else
    dataLoop o (raw_results.take MAX_ARTICLES)

/-- The `for i, x in enumerate(xs, 1): log(f"{label}{i}: {x}")` loops at the
end of the Trend/Strategy/Risk agents. -/
def logEnum (label : String) : Nat → List Json → EmitM Unit
  | _, [] => pure ()
  | i, t :: rest => do
    emitLog (label ++ toString i ++ ": " ++ pyStr t)
    logEnum label (i + 1) rest

/-- `trend_agent` (`market_intel.py` lines 135-177). -/
def trend_agent (o : Oracle) (articles : List Article) : EmitM Json := do
  emitLog "[Trend Agent] 📈 Detecting trends and sentiment shifts ..."
  let brief := strJoin "\n"
    (articles.map fun a => "- [" ++ a.source ++ "] " ++ a.headline ++ ": " ++ a.summary)
  let raw ← _chat o
    ("You are a market research analyst specialising in trend detection. " ++
     "Return ONLY valid JSON with two keys: " ++
     "\"trends\" (list of 3 strings) and " ++
     "\"sentiment_shifts\" (list of strings describing sentiment changes). " ++
     "No markdown, no code fences.")
    ("News summaries:\n" ++ brief ++
     "\n\nIdentify 3 major market trends and any notable sentiment shifts.")
  let result ← liftE (trendExtract raw)
  let ts ← liftE (pyGet result "trends" (.arr []))
  let items ← liftE (pyIter ts)
  logEnum "  Trend " 1 items
  pure result

/-- `strategy_agent` (`market_intel.py` lines 185-226). -/
def strategy_agent (o : Oracle) (trend_data : Json) : EmitM Json := do
  emitLog "[Strategy Agent] 💡 Generating strategic opportunities ..."
  let tv ← liftE (pyGet trend_data "trends" (.arr []))
  let tItems ← liftE (pyIter tv)
  let trend_text := strJoin "\n" (tItems.map fun t => "- " ++ pyStr t)
  let sv ← liftE (pyGet trend_data "sentiment_shifts" (.arr []))
  let sItems ← liftE (pyIter sv)
  let sentiment_text := strJoin "\n" (sItems.map fun s => "- " ++ pyStr s)
  let raw ← _chat o
    ("You are a senior business strategist. " ++
     "Return ONLY valid JSON with two keys: " ++
     "\"opportunities\" (list of 3 business opportunity strings) and " ++
     "\"recommendations\" (list of 3 strategic recommendation strings). " ++
     "No markdown, no code fences.")
    ("Market Trends:\n" ++ trend_text ++ "\n\nSentiment Shifts:\n" ++ sentiment_text ++
     "\n\nGenerate concrete business opportunities and strategic recommendations.")
  let result ← liftE (strategyExtract raw)
  let ov ← liftE (pyGet result "opportunities" (.arr []))
  let oItems ← liftE (pyIter ov)
  logEnum "  Opportunity " 1 oItems
  pure result

/-- `risk_agent` (`market_intel.py` lines 234-277). -/
def risk_agent (o : Oracle) (trend_data strategy_data : Json) : EmitM Json := do
  emitLog "[Risk Agent] ⚠️  Identifying risks and weak signals ..."
  let tv ← liftE (pyGet trend_data "trends" (.arr []))
  let tItems ← liftE (pyIter tv)
  let trend_text := strJoin "\n" (tItems.map fun t => "- " ++ pyStr t)
  let rv ← liftE (pyGet strategy_data "recommendations" (.arr []))
  let rItems ← liftE (pyIter rv)
  let strategy_text := strJoin "\n" (rItems.map fun r => "- " ++ pyStr r)
  let raw ← _chat o
    ("You are a risk analyst specialising in emerging market threats. " ++
     "Return ONLY valid JSON with three keys: " ++
     "\"risks\" (list of 3 market risk strings), " ++
     "\"weak_signals\" (list of 2 early warning signals), and " ++
     "\"uncertainties\" (list of 2 major uncertainty factors). " ++
     "No markdown, no code fences.")
    ("Market Trends:\n" ++ trend_text ++ "\n\nProposed Strategies:\n" ++ strategy_text ++
     "\n\nIdentify the key risks, weak signals, and uncertainties.")
  let result ← liftE (riskExtract raw)
  let rks ← liftE (pyGet result "risks" (.arr []))
  let rkItems ← liftE (pyIter rks)
  logEnum "  Risk " 1 rkItems
  pure result

/-- `voice_agent` (`market_intel.py` lines 283-316): one reasoning call,
returning the script. -/
def voice_agent (o : Oracle) (report_text : String) : EmitM String := do
  emitLog "[Voice Agent] 🎙️  Writing voice script ..."
  let script ← _chat o
    ("You are a professional radio broadcaster. " ++
     "Convert the market intelligence report into a concise 60-second verbal briefing. " ++
     "Use natural, spoken language.")
    report_text
  pure script

/-- The body of `_run_pipeline`'s `try:` block (`app.py` lines 45-90). -/
def runBody (o : Oracle) (topic : String) (include_voice : Bool) : EmitM Unit := do
  emitLog ("🚀 Pipeline started for topic: '" ++ topic ++ "'")
  emitLog "🔍 [Data Agent] Searching for recent news..."
  let articles ← data_agent o topic
  if articles.isEmpty then
    emitEvent (.error "No news articles retrieved. Pipeline aborted.")
  else do
    emitLog "📈 [Trend Agent] Detecting market trends and sentiment shifts..."
    let trends ← trend_agent o articles
    emitLog "💡 [Strategy Agent] Generating strategic opportunities..."
    let strategy ← strategy_agent o trends
    emitLog "⚠️  [Risk Agent] Identifying risks and weak signals..."
    let risks ← risk_agent o trends strategy
    let voice_script ←
      if include_voice then do
        emitLog "🎙️  [Voice Agent] Writing broadcast script..."
        let p1 ← liftE ((pyGet trends "trends" (.arr [])).bind (pyJoin " | "))
        let p2 ← liftE ((pyGet strategy "opportunities" (.arr [])).bind (pyJoin "; "))
        let p3 ← liftE ((pyGet risks "risks" (.arr [])).bind (pyJoin "; "))
        let brief := "Market Intelligence on '" ++ topic ++ "': " ++ p1 ++ ". " ++
          "Opportunities: " ++ p2 ++ ". " ++ "Key Risks: " ++ p3
        let script ← voice_agent o brief
        pure (some script)
      else pure none
    let report : Report :=
      ⟨topic, articles, trends, strategy, risks, voice_script⟩
    emitLog "✅ Pipeline complete."
    emitEvent (.done report)

/-- The initial executor state of a fresh run. -/
def initState : PipeState := ⟨[], 0⟩

/-- `_run_pipeline` (`app.py` lines 38-96), as the final FIFO contents of
the run's queue: the `try:` body's events, then — for an exception reaching
the executor boundary — the `except` clause's single error event, then the
`finally` clause's end-of-stream sentinel `none`. -/
def runPipeline (o : Oracle) (topic : String) (include_voice : Bool) :
    List (Option Event) :=
  let r := runBody o topic include_voice initState
  let evs :=
    match r.1 with
    | .ok _ => r.2.events
    | .error e => r.2.events ++ [Event.error ("Pipeline error: " ++ e.msg)]
  evs.map some ++ [none]

/-- The consumer loop of the `/stream/<run_id>` generator (`app.py` lines
132-139): yield queue items in FIFO order until the sentinel. -/
def consume : List (Option Event) → List Event
  | [] => []
  | none :: _ => []
  | some ev :: rest => ev :: consume rest

/-- `\n` → `\\n` payload escaping done by `_sse` (`data.replace("\n",
"\\n")`; the pattern is a single character, so the replacement is
per-character). -/
def escNewlines (s : String) : String :=
  ⟨s.data.foldr (fun c acc => if c = '\n' then '\\' :: 'n' :: acc else c :: acc) []⟩

/-- `_sse` (`app.py` lines 32-35): the wire framing of one event. -/
def _sse (event data : String) : String :=
  "event: " ++ event ++ "\ndata: " ++ escNewlines data ++ "\n\n"

/-- The JSON value of one article dict inside the `done` payload. -/
def articleToJson (a : Article) : Json :=
  .obj [("headline", .str a.headline), ("source", .str a.source),
        ("summary", .str a.summary)]

/-- The JSON value of the report dict (`app.py` lines 80-87); a `None`
voice script serialises as `null`. -/
def reportToJson (r : Report) : Json :=
  .obj [("topic", .str r.topic),
        ("articles", .arr (r.articles.map articleToJson)),
        ("trends", r.trends),
        ("strategy", r.strategy),
        ("risks", r.risks),
        ("voice_script", match r.voice_script with | some s => .str s | none => .null)]

/-- The wire string written to the queue for one typed event. -/
def wireEvent : Event → String
  | .log s => _sse "log" s
  | .error s => _sse "error" s
  | .done r => _sse "done" (json_dumps (reportToJson r))

/-- The run's queue at the wire level (SSE strings plus the `None`
sentinel), exactly as `_run_pipeline` produces it. -/
def runPipelineWire (o : Oracle) (topic : String) (include_voice : Bool) :
    List (Option String) :=
  (runPipeline o topic include_voice).map (Option.map wireEvent)

/-- The JSON body of a `POST /run` request, restricted to the two fields
`start_run` reads (`data.get("topic", "")`, `bool(data.get("include_voice",
True))`); an absent field is `none`. -/
structure StartRequest where
  topic : Option String
  include_voice : Option Bool

/-- The synchronous outcome of `POST /run`: either the 400 response of the
empty-topic check, or a fresh run id. -/
inductive StartResult where
  | badRequest (msg : String)
  | ok (run_id : String)
deriving DecidableEq, Repr

/-- `start_run` (`app.py` lines 108-122).  The registry is the set of run
ids with a live queue (`_runs`); `fresh` stands for the `uuid4` value.
Returns the HTTP result, the updated registry, and — when a pipeline thread
is started — its arguments `(run_id, topic, include_voice)`.  Note that the
*stripped* topic is validated and handed to the pipeline. -/
def start_run (req : StartRequest) (reg : List String) (fresh : String) :
    StartResult × List String × Option (String × String × Bool) :=
  let topic := pyStrip (req.topic.getD "")
  if topic = "" then (.badRequest "topic is required", reg, none)
  else
    let include_voice := req.include_voice.getD true
    (.ok fresh, reg ++ [fresh], some (fresh, topic, include_voice))

/-- Is the event an `error` event? -/
def Event.isErrorB : Event → Bool
  | .error _ => true
  | _ => false

/-- Is the event a `done` event? -/
def Event.isDoneB : Event → Bool
  | .done _ => true
  | _ => false

/-- Is the event a terminal event (`done` or `error`)? -/
def Event.isTerminalB (ev : Event) : Bool := ev.isErrorB || ev.isDoneB

/-- Is the queue item a (non-sentinel) `error` event? -/
def itemErrorB : Option Event → Bool
  | some (.error _) => true
  | _ => false

/-- Is the queue item a (non-sentinel) `done` event? -/
def itemDoneB : Option Event → Bool
  | some (.done _) => true
  | _ => false

/-- The report carried by the first `done` event of the queue, if any. -/
def doneReport : List (Option Event) → Option Report
  | [] => none
  | some (.done r) :: _ => some r
  | _ :: rest => doneReport rest

/-! ### Execution lemmas for the `EmitM` monad -/

theorem EmitM.run_bind (m : EmitM α) (f : α → EmitM β) (st : PipeState) :
    (m >>= f) st =
      match m st with
      | (.ok a, st1) => f a st1
      | (.error e, st1) => (.error e, st1) := rfl

theorem EmitM.run_bind_ok {m : EmitM α} {st st1 : PipeState} {a : α}
    (f : α → EmitM β) (h : m st = (.ok a, st1)) : (m >>= f) st = f a st1 := by
  rw [EmitM.run_bind, h]

theorem EmitM.run_bind_err {m : EmitM α} {st st1 : PipeState} {e : PyErr}
    (f : α → EmitM β) (h : m st = (.error e, st1)) :
    (m >>= f) st = (.error e, st1) := by
  rw [EmitM.run_bind, h]

theorem EmitM.run_pure (a : α) (st : PipeState) :
    (pure a : EmitM α) st = (.ok a, st) := rfl

theorem run_emitEvent (ev : Event) (st : PipeState) :
    emitEvent ev st = (.ok (), ⟨st.events ++ [ev], st.chatCalls⟩) := rfl

theorem run_emitLog (msg : String) (st : PipeState) :
    emitLog msg st = (.ok (), ⟨st.events ++ [.log msg], st.chatCalls⟩) := rfl

theorem run_liftE (r : Except PyErr α) (st : PipeState) : liftE r st = (r, st) := rfl

theorem run_chat (o : Oracle) (sys usr : String) (st : PipeState) :
    _chat o sys usr st =
      (match o.chats st.chatCalls with
       | .ok s => (.ok (pyStrip s), ⟨st.events, st.chatCalls + 1⟩)
       | .error e => (.error e, ⟨st.events, st.chatCalls + 1⟩)) := by
  unfold _chat
  cases o.chats st.chatCalls <;> rfl

/-- The consumer reads exactly the producer's events, in FIFO order, when
the queue is events followed by the sentinel. -/
theorem consume_map_some (evs : List Event) (tail : List (Option Event)) :
    consume (evs.map some ++ none :: tail) = evs := by
  induction evs with
  | nil => rfl
  | cons e rest ih => simpa [consume] using ih

/-! ### C6 / C10: run creation -/

/-- C6: `StartRun` with an empty topic (the field empty or missing) fails
synchronously with the 400 InvalidInput response; no run identifier is
produced, the registry (and hence the set of event channels) is unchanged,
and no pipeline execution is started. -/
theorem C6_startRun_empty_topic_rejected :
    ∀ (iv : Option Bool) (reg : List String) (fresh : String),
      start_run ⟨some "", iv⟩ reg fresh = (.badRequest "topic is required", reg, none) ∧
      start_run ⟨none, iv⟩ reg fresh = (.badRequest "topic is required", reg, none) := by
  intro iv reg fresh
  exact ⟨rfl, rfl⟩

/-- C10: the topic is stripped before validation, so a topic consisting
only of whitespace characters is rejected exactly like an empty one:
synchronous InvalidInput, no run created, no pipeline started. -/
theorem C10_startRun_whitespace_topic_rejected :
    ∀ (s : String) (iv : Option Bool) (reg : List String) (fresh : String),
      (∀ c ∈ s.data, pyIsSpace c = true) →
      start_run ⟨some s, iv⟩ reg fresh = (.badRequest "topic is required", reg, none) := by
  intro s iv reg fresh hsp
  have hstrip : pyStrip s = "" := by
    have h1 : s.data.dropWhile pyIsSpace = [] := by
      rw [List.dropWhile_eq_nil_iff]
      exact hsp
    simp [pyStrip, h1]
  simp [start_run, hstrip]

/-- Witness for C10 at the concrete whitespace-only topic `"   "`. -/
theorem C10_startRun_whitespace_topic_rejected_witness :
    start_run ⟨some "   ", some true⟩ [] "id1" =
      (.badRequest "topic is required", [], none) :=
  C10_startRun_whitespace_topic_rejected "   " (some true) [] "id1" (by decide)

/-! ### C2: empty-search abort -/

/-- C2: a run whose Data-stage search call returns zero hits emits exactly
the start/Data-stage logs followed by one error event and the end-of-stream
sentinel: exactly one error event, no done event, no Trend/Strategy/Risk/
Voice progress events, and no reasoning-service call is made (no stage
after Data executes). -/
theorem C2_emptySearch_single_error_no_done :
    ∀ (ch : Nat → Except PyErr String) (t : String) (iv : Bool),
      runPipeline ⟨.ok [], ch⟩ t iv =
        [some (.log ("🚀 Pipeline started for topic: '" ++ t ++ "'")),
         some (.log "🔍 [Data Agent] Searching for recent news..."),
         some (.log ("[Data Agent] 🔍 Searching news for: '" ++ t ++ "' ...")),
         some (.log "[Data Agent] ⚠️  No results returned from Tavily."),
         some (.error "No news articles retrieved. Pipeline aborted."),
         none] ∧
      (runPipeline ⟨.ok [], ch⟩ t iv).countP itemErrorB = 1 ∧
      (runPipeline ⟨.ok [], ch⟩ t iv).countP itemDoneB = 0 ∧
      (runBody ⟨.ok [], ch⟩ t iv initState).2.chatCalls = 0 := by
  intro ch t iv
  refine ⟨rfl, ?_, ?_, rfl⟩ <;> rfl

/-! ### C4: the extractor's fallback on decode failure -/

/-- Every failure of `json.loads` is a `JSONDecodeError` (and hence a
`ValueError`), by construction of the decoder. -/
theorem json_loads_error_isValueError (s : String) (e : PyErr)
    (h : json_loads s = .error e) : e.isValueError = true := by
  unfold json_loads at h
  rcases hp : parseVal (2 * s.data.length + 4) s.data with he | ⟨v, rest⟩ <;>
    rw [hp] at h
  · cases h
    rfl
  · by_cases hr : (skipWs rest).isEmpty <;> simp [hr] at h
    rw [← h]
    rfl

/-- Every failure of `_parse_json` is a `ValueError`. -/
theorem parse_json_error_isValueError (raw : String) (e : PyErr)
    (h : _parse_json raw = .error e) : e.isValueError = true :=
  json_loads_error_isValueError _ e h

/-- C4: for every raw input on which JSON decoding fails, each of the
Trend/Strategy/Risk extraction blocks returns a mapping in which every
expected key of that stage is present and maps to a non-empty
(single-element) list, and the list under the first expected key contains
exactly the original raw text, verbatim. -/
theorem C4_decode_failure_fallback_shape :
    ∀ (raw : String), (_parse_json raw).isOk = false →
      trendExtract raw =
        .ok (.obj [("trends", .arr [.str raw]),
                   ("sentiment_shifts", .arr [.str sentinel])]) ∧
      strategyExtract raw =
        .ok (.obj [("opportunities", .arr [.str raw]),
                   ("recommendations", .arr [.str sentinel])]) ∧
      riskExtract raw =
        .ok (.obj [("risks", .arr [.str raw]),
                   ("weak_signals", .arr [.str sentinel]),
                   ("uncertainties", .arr [.str sentinel])]) := by
  intro raw h
  rcases hp : _parse_json raw with e | v
  · have hv := parse_json_error_isValueError raw e hp
    refine ⟨?_, ?_, ?_⟩ <;>
      simp [trendExtract, strategyExtract, riskExtract, hp, hv,
        trendFallback, strategyFallback, riskFallback]
  · rw [hp] at h
    simp [Except.isOk, Except.toBool] at h

/-- Witness for C4 at the concrete undecodable input `"plain prose"`. -/
theorem C4_decode_failure_fallback_shape_witness :
    trendExtract "plain prose" =
        .ok (.obj [("trends", .arr [.str "plain prose"]),
                   ("sentiment_shifts", .arr [.str sentinel])]) ∧
      strategyExtract "plain prose" =
        .ok (.obj [("opportunities", .arr [.str "plain prose"]),
                   ("recommendations", .arr [.str sentinel])]) ∧
      riskExtract "plain prose" =
        .ok (.obj [("risks", .arr [.str "plain prose"]),
                   ("weak_signals", .arr [.str sentinel]),
                   ("uncertainties", .arr [.str sentinel])]) :=
  C4_decode_failure_fallback_shape "plain prose" (by decide)

/-! ### C3: channel structure — sentinel last and exactly once, FIFO,
terminal event last -/

/-- Analysis of a successful bind: both parts succeeded. -/
theorem EmitM.bind_ok_dest {m : EmitM α} {f : α → EmitM β} {st st' : PipeState}
    {b : β} (h : (m >>= f) st = (.ok b, st')) :
    ∃ a st1, m st = (.ok a, st1) ∧ f a st1 = (.ok b, st') := by
  rw [EmitM.run_bind] at h
  rcases hm : m st with ⟨r, st1⟩
  rw [hm] at h
  cases r with
  | ok a => exact ⟨a, st1, rfl, h⟩
  | error e => simp at h

/-- If the `try:` body of `_run_pipeline` completes without an exception,
the last event it wrote is terminal: either the empty-search error event or
the `done` event. -/
theorem runBody_ok_last (o : Oracle) (t : String) (iv : Bool)
    (st st' : PipeState) (h : runBody o t iv st = (.ok (), st')) :
    ∃ pre ev, st'.events = pre ++ [ev] ∧ ev.isTerminalB = true := by
  unfold runBody at h
  obtain ⟨-, st1, -, h⟩ := EmitM.bind_ok_dest h
  obtain ⟨-, st2, -, h⟩ := EmitM.bind_ok_dest h
  obtain ⟨articles, st3, -, h⟩ := EmitM.bind_ok_dest h
  by_cases hemp : articles.isEmpty
  · simp only [hemp, if_true] at h
    rw [run_emitEvent] at h
    cases h.symm
    exact ⟨st3.events, _, rfl, rfl⟩
  · simp only [hemp, Bool.false_eq_true, if_false] at h
    obtain ⟨-, st4, -, h⟩ := EmitM.bind_ok_dest h
    obtain ⟨trends, st5, -, h⟩ := EmitM.bind_ok_dest h
    obtain ⟨-, st6, -, h⟩ := EmitM.bind_ok_dest h
    obtain ⟨strategy, st7, -, h⟩ := EmitM.bind_ok_dest h
    obtain ⟨-, st8, -, h⟩ := EmitM.bind_ok_dest h
    obtain ⟨risks, st9, -, h⟩ := EmitM.bind_ok_dest h
    by_cases hiv : iv
    · simp only [hiv, if_true] at h
      obtain ⟨-, _, -, h⟩ := EmitM.bind_ok_dest h
      obtain ⟨p1, _, -, h⟩ := EmitM.bind_ok_dest h
      obtain ⟨p2, _, -, h⟩ := EmitM.bind_ok_dest h
      obtain ⟨p3, _, -, h⟩ := EmitM.bind_ok_dest h
      obtain ⟨script, _, -, h⟩ := EmitM.bind_ok_dest h
      obtain ⟨y, _, -, h⟩ := EmitM.bind_ok_dest h
      obtain ⟨-, stF, -, h⟩ := EmitM.bind_ok_dest h
      rw [run_emitEvent] at h
      cases h.symm
      exact ⟨stF.events, _, rfl, rfl⟩
    · simp only [hiv, Bool.false_eq_true, if_false] at h
      obtain ⟨y, _, -, h⟩ := EmitM.bind_ok_dest h
      obtain ⟨-, stF, -, h⟩ := EmitM.bind_ok_dest h
      rw [run_emitEvent] at h
      cases h.symm
      exact ⟨stF.events, _, rfl, rfl⟩

/-- Generic facts about a queue of the shape `events ++ [sentinel]`. -/
theorem channel_shape (evs : List Event) (xs : List (Option Event))
    (hx : xs = evs.map some ++ [none]) :
    consume xs = evs ∧ xs.countP (fun x => x.isNone) = 1 ∧
      xs.getLast? = some none := by
  subst hx
  refine ⟨?_, ?_, ?_⟩
  · simpa using consume_map_some evs []
  · simp [List.countP_append, List.countP_map, Function.comp_def]
  · simp

/-- C3: for every run, whatever terminal path is taken, the channel is the
executor's events in FIFO order followed by exactly one end-of-stream
sentinel as the strictly last item; the consumer observes exactly those
events in producer order (and nothing after the sentinel), and the last
observed event is terminal (`done` or `error`). -/
theorem C3_channel_sentinel_and_order :
    ∀ (o : Oracle) (t : String) (iv : Bool),
      ∃ evs : List Event,
        runPipeline o t iv = evs.map some ++ [none] ∧
        consume (runPipeline o t iv) = evs ∧
        (runPipeline o t iv).countP (fun x => x.isNone) = 1 ∧
        (runPipeline o t iv).getLast? = some none ∧
        ∃ ev : Event, evs.getLast? = some ev ∧ ev.isTerminalB = true := by
  intro o t iv
  rcases hr : runBody o t iv initState with ⟨res, stF⟩
  cases res with
  | error e =>
    have hq : runPipeline o t iv =
        (stF.events ++ [Event.error ("Pipeline error: " ++ e.msg)]).map some ++ [none] := by
      simp [runPipeline, hr]
    obtain ⟨h1, h2, h3⟩ := channel_shape _ _ hq
    exact ⟨_, hq, h1, h2, h3, Event.error ("Pipeline error: " ++ e.msg), by simp, rfl⟩
  | ok u =>
    cases u
    obtain ⟨pre, ev, hev, hterm⟩ := runBody_ok_last o t iv _ _ hr
    have hq : runPipeline o t iv = stF.events.map some ++ [none] := by
      simp [runPipeline, hr]
    obtain ⟨h1, h2, h3⟩ := channel_shape _ _ hq
    exact ⟨_, hq, h1, h2, h3, ev, by simp [hev], hterm⟩

/-! ### C7: Data-stage cap and ordering -/

/-- Characterisation of the summarisation loop (`data_agent`'s `for` loop):
when it completes, the articles correspond one-to-one, in order, to the
hits it was given. -/
theorem dataLoop_ok_shape (o : Oracle) :
    ∀ (l : List Hit) (st st' : PipeState) (arts : List Article),
      dataLoop o l st = (.ok arts, st') →
      arts.map Article.headline = l.map (fun h => h.title.getD "No title") ∧
      arts.map Article.source = l.map (fun h => h.url.getD "Unknown source") := by
  intro l
  induction l with
  | nil =>
    intro st st' arts h
    rw [show dataLoop o [] = pure [] from rfl, EmitM.run_pure] at h
    cases h.symm
    exact ⟨rfl, rfl⟩
  | cons hd tl ih =>
    intro st st' arts h
    rw [show dataLoop o (hd :: tl) st =
      (_chat o
        "You are a concise financial news analyst. Summarise the article in one sentence."
        ("Article title: " ++ hd.title.getD "No title" ++ "\n\nContent: " ++
          strTake 1500 (hd.content.getD (hd.snippet.getD ""))) >>= fun summary =>
       emitLog ("  ✔ " ++ strTake 80 (hd.title.getD "No title")) >>= fun _ =>
       dataLoop o tl >>= fun tail =>
       pure ((⟨hd.title.getD "No title", hd.url.getD "Unknown source", summary⟩ : Article) :: tail)) st
      from rfl] at h
    obtain ⟨summary, st1, -, h⟩ := EmitM.bind_ok_dest h
    obtain ⟨-, st2, -, h⟩ := EmitM.bind_ok_dest h
    obtain ⟨tail, st3, htl, h⟩ := EmitM.bind_ok_dest h
    rw [EmitM.run_pure] at h
    cases h.symm
    obtain ⟨ih1, ih2⟩ := ih _ _ _ htl
    simp [ih1, ih2]

/-- C7: for every run, the Data stage returns at most `MAX_ARTICLES = 5`
articles, and the articles appear exactly in the order of the search hits:
the headline/source sequences equal the hits' title/url sequences truncated
at the cap, not re-sorted. -/
theorem C7_data_stage_cap_and_order :
    ∀ (o : Oracle) (t : String) (hits : List Hit) (st st' : PipeState)
      (arts : List Article),
      o.search = .ok hits →
      data_agent o t st = (.ok arts, st') →
      arts.length ≤ MAX_ARTICLES ∧
      arts.map Article.headline =
        (hits.take MAX_ARTICLES).map (fun h => h.title.getD "No title") ∧
      arts.map Article.source =
        (hits.take MAX_ARTICLES).map (fun h => h.url.getD "Unknown source") := by
  intro o t hits st st' arts hsearch h
  unfold data_agent at h
  obtain ⟨-, st1, -, h⟩ := EmitM.bind_ok_dest h
  obtain ⟨raw_results, st2, hres, h⟩ := EmitM.bind_ok_dest h
  rw [run_liftE, hsearch] at hres
  obtain ⟨rfl, rfl⟩ : hits = raw_results ∧ st1 = st2 := by
    cases hres
    exact ⟨rfl, rfl⟩
  by_cases hemp : hits.isEmpty
  · simp only [hemp, if_true] at h
    obtain ⟨-, st3, -, h⟩ := EmitM.bind_ok_dest h
    rw [EmitM.run_pure] at h
    cases h.symm
    rcases hits with _ | ⟨a, b⟩
    · exact ⟨by simp, rfl, rfl⟩
    · simp [List.isEmpty] at hemp
  · simp only [hemp, Bool.false_eq_true, if_false] at h
    obtain ⟨h1, h2⟩ := dataLoop_ok_shape o _ _ _ _ h
    refine ⟨?_, h1, h2⟩
    have : arts.length = ((hits.take MAX_ARTICLES).map
        (fun h => h.title.getD "No title")).length := by
      rw [← h1]
      simp
    rw [this]
    simp [MAX_ARTICLES]

/-- A concrete two-hit oracle for the C7 witness. -/
def oracleC7 : Oracle :=
  ⟨.ok [⟨some "T1", some "U1", some "C1", none⟩, ⟨none, none, none, none⟩],
   fun _ => .ok " sum "⟩

/-- Witness for C7: a concrete two-hit search, articles in hit order. -/
theorem C7_data_stage_cap_and_order_witness :
    [(⟨"T1", "U1", "sum"⟩ : Article), ⟨"No title", "Unknown source", "sum"⟩].length ≤
        MAX_ARTICLES ∧
      [(⟨"T1", "U1", "sum"⟩ : Article), ⟨"No title", "Unknown source", "sum"⟩].map
          Article.headline =
        (([⟨some "T1", some "U1", some "C1", none⟩,
           ⟨none, none, none, none⟩] : List Hit).take MAX_ARTICLES).map
          (fun h => h.title.getD "No title") ∧
      [(⟨"T1", "U1", "sum"⟩ : Article), ⟨"No title", "Unknown source", "sum"⟩].map
          Article.source =
        (([⟨some "T1", some "U1", some "C1", none⟩,
           ⟨none, none, none, none⟩] : List Hit).take MAX_ARTICLES).map
          (fun h => h.url.getD "Unknown source") :=
  C7_data_stage_cap_and_order oracleC7 "t"
    [⟨some "T1", some "U1", some "C1", none⟩, ⟨none, none, none, none⟩]
    initState
    ⟨[.log "[Data Agent] 🔍 Searching news for: 't' ...",
      .log "  ✔ T1", .log "  ✔ No title"], 2⟩
    [⟨"T1", "U1", "sum"⟩, ⟨"No title", "Unknown source", "sum"⟩]
    (by rfl) (by rfl)

/-! ### C1: malformed vs wrong-shape reasoning responses -/

/-- Is the event a `log` event? -/
def Event.isLogB : Event → Bool
  | .log _ => true
  | _ => false

/-- A concrete oracle whose Trend-stage response `"[]"` is syntactically
valid JSON with a non-mapping top-level shape. -/
def oracleC1 : Oracle :=
  ⟨.ok [⟨some "T", some "U", some "C", none⟩],
   fun i => if i = 0 then .ok "summary" else .ok "[]"⟩

/-- Counterexample to C1 as stated: a Trend-stage response that decodes
successfully but has the wrong top-level shape (a JSON array) is *not*
recovered by the extractor's fallback — the run's event stream contains an
error event and no done event, so the run does not continue to a done
event. -/
theorem C1_wrong_shape_counterexample :
    (_parse_json "[]").isOk = true ∧
    (runPipeline oracleC1 "ai" false).countP itemErrorB = 1 ∧
    (runPipeline oracleC1 "ai" false).countP itemDoneB = 0 := by
  refine ⟨by decide, ?_, ?_⟩ <;> rfl

/-- Events that are all logs contribute no error and no done items. -/
theorem all_logs_counts (L : List Event) (h : L.all Event.isLogB = true) :
    (L.map some).countP itemErrorB = 0 ∧ (L.map some).countP itemDoneB = 0 := by
  induction L with
  | nil => exact ⟨rfl, rfl⟩
  | cons e rest ih =>
    simp only [List.all_cons, Bool.and_eq_true] at h
    obtain ⟨he, hrest⟩ := h
    obtain ⟨ih1, ih2⟩ := ih hrest
    cases e with
    | log m =>
      constructor
      · simp only [List.map_cons, List.countP_cons]
        rw [ih1]
        rfl
      · simp only [List.map_cons, List.countP_cons]
        rw [ih2]
        rfl
    | error m => simp [Event.isLogB] at he
    | done r => simp [Event.isLogB] at he

/-- Events that are all logs contain no done report. -/
theorem all_logs_doneReport (L : List Event) (h : L.all Event.isLogB = true)
    (tail : List (Option Event)) :
    doneReport (L.map some ++ tail) = doneReport tail := by
  induction L with
  | nil => rfl
  | cons e rest ih =>
    simp only [List.all_cons, Bool.and_eq_true] at h
    obtain ⟨he, hrest⟩ := h
    cases e with
    | log m => simpa [doneReport] using ih hrest
    | error m => simp [Event.isLogB] at he
    | done r => simp [Event.isLogB] at he

/-- The Data-stage loop succeeds when every reasoning call it makes
succeeds, consuming exactly one call per hit and emitting only log
events. -/
theorem dataLoop_all_ok (o : Oracle) :
    ∀ (l : List Hit) (st : PipeState),
      (∀ i, i < l.length → (o.chats (st.chatCalls + i)).isOk = true) →
      ∃ (arts : List Article) (d : List Event),
        dataLoop o l st = (.ok arts, ⟨st.events ++ d, st.chatCalls + l.length⟩) ∧
        d.all Event.isLogB = true ∧ arts.length = l.length := by
  intro l
  induction l with
  | nil =>
    intro st h
    refine ⟨[], [], ?_, rfl, rfl⟩
    show (pure [] : EmitM (List Article)) st = _
    rw [EmitM.run_pure]
    simp
  | cons hd tl ih =>
    intro st h
    have h0 : (o.chats st.chatCalls).isOk = true := by
      have := h 0 (by simp)
      simpa using this
    rcases hc : o.chats st.chatCalls with e | s
    · rw [hc] at h0
      simp [Except.isOk, Except.toBool] at h0
    · have hchat : _chat o
          "You are a concise financial news analyst. Summarise the article in one sentence."
          ("Article title: " ++ hd.title.getD "No title" ++ "\n\nContent: " ++
            strTake 1500 (hd.content.getD (hd.snippet.getD ""))) st =
          (.ok (pyStrip s), ⟨st.events, st.chatCalls + 1⟩) := by
        rw [run_chat, hc]
      obtain ⟨arts2, d2, hrec, hall2, hlen2⟩ :=
        ih ⟨st.events ++ [Event.log ("  ✔ " ++ strTake 80 (hd.title.getD "No title"))],
            st.chatCalls + 1⟩
          (by
            intro i hi
            have := h (i + 1) (by simpa using Nat.succ_lt_succ hi)
            have heq : st.chatCalls + (i + 1) = st.chatCalls + 1 + i := by omega
            rw [heq] at this
            simpa using this)
      refine ⟨⟨hd.title.getD "No title", hd.url.getD "Unknown source", pyStrip s⟩ :: arts2,
        Event.log ("  ✔ " ++ strTake 80 (hd.title.getD "No title")) :: d2, ?_, ?_, ?_⟩
      · show (_chat o _ _ >>= fun summary =>
          emitLog ("  ✔ " ++ strTake 80 (hd.title.getD "No title")) >>= fun _ =>
          dataLoop o tl >>= fun tail =>
          pure ((⟨hd.title.getD "No title", hd.url.getD "Unknown source", summary⟩ :
            Article) :: tail)) st = _
        rw [EmitM.run_bind_ok _ hchat]
        rw [EmitM.run_bind_ok _ (run_emitLog _ _)]
        rw [EmitM.run_bind_ok _ hrec]
        rw [EmitM.run_pure]
        simp only [Prod.mk.injEq, PipeState.mk.injEq, true_and]
        constructor
        · simp [List.append_assoc]
        · simp only [List.length_cons]
          omega
      · rw [List.all_cons, hall2]
        rfl
      · simp [hlen2]

/-- A successful reasoning call, as one rewrite step. -/
theorem run_chat_ok (o : Oracle) (sys usr : String) (st : PipeState) (s : String)
    (hc : o.chats st.chatCalls = .ok s) :
    _chat o sys usr st = (.ok (pyStrip s), ⟨st.events, st.chatCalls + 1⟩) := by
  rw [run_chat, hc]

/-- A successful lifted Python expression, as one rewrite step. -/
theorem run_liftE_ok {r : Except PyErr α} {a : α} (st : PipeState)
    (h : r = Except.ok a) : liftE r st = (.ok a, st) := by
  rw [run_liftE, h]

/-- A failing decode makes `trendExtract` return the fallback. -/
theorem trendExtract_fallback (raw : String)
    (hf : (_parse_json raw).isOk = false) :
    trendExtract raw = .ok (trendFallback raw) := by
  rcases hp : _parse_json raw with e | v
  · simp [trendExtract, hp, parse_json_error_isValueError _ _ hp]
  · rw [hp] at hf
    simp [Except.isOk, Except.toBool] at hf

/-- A failing decode makes `strategyExtract` return the fallback. -/
theorem strategyExtract_fallback (raw : String)
    (hf : (_parse_json raw).isOk = false) :
    strategyExtract raw = .ok (strategyFallback raw) := by
  rcases hp : _parse_json raw with e | v
  · simp [strategyExtract, hp, parse_json_error_isValueError _ _ hp]
  · rw [hp] at hf
    simp [Except.isOk, Except.toBool] at hf

/-- A failing decode makes `riskExtract` return the fallback. -/
theorem riskExtract_fallback (raw : String)
    (hf : (_parse_json raw).isOk = false) :
    riskExtract raw = .ok (riskFallback raw) := by
  rcases hp : _parse_json raw with e | v
  · simp [riskExtract, hp, parse_json_error_isValueError _ _ hp]
  · rw [hp] at hf
    simp [Except.isOk, Except.toBool] at hf

/-- Trend stage on a response that fails to decode: the fallback value is
returned, one reasoning call is consumed, two log events are emitted. -/
theorem trend_agent_fallback (o : Oracle) (articles : List Article)
    (st : PipeState) (sT : String)
    (hc : o.chats st.chatCalls = .ok sT)
    (hf : (_parse_json (pyStrip sT)).isOk = false) :
    trend_agent o articles st =
      (.ok (trendFallback (pyStrip sT)),
       ⟨st.events ++
          [.log "[Trend Agent] 📈 Detecting trends and sentiment shifts ...",
           .log ("  Trend 1: " ++ pyStrip sT)],
        st.chatCalls + 1⟩) := by
  unfold trend_agent
  rw [EmitM.run_bind_ok _ (run_emitLog _ _)]
  rw [EmitM.run_bind_ok _ (run_chat_ok o _ _
    ⟨st.events ++ [Event.log "[Trend Agent] 📈 Detecting trends and sentiment shifts ..."],
     st.chatCalls⟩ _ hc)]
  rw [EmitM.run_bind_ok _ (run_liftE_ok _ (trendExtract_fallback _ hf))]
  rw [EmitM.run_bind_ok _ (run_liftE_ok _ (show pyGet (trendFallback (pyStrip sT))
    "trends" (.arr []) = .ok (.arr [.str (pyStrip sT)]) from rfl))]
  rw [EmitM.run_bind_ok _ (run_liftE_ok _ (show pyIter (.arr [.str (pyStrip sT)]) =
    .ok [.str (pyStrip sT)] from rfl))]
  rw [EmitM.run_bind_ok _ (show logEnum "  Trend " 1 [.str (pyStrip sT)] _ =
    (.ok (), _) from rfl)]
  rw [EmitM.run_pure]
  simp
  rfl

/-- Strategy stage, fed the Trend fallback, on a response that fails to
decode: the fallback value is returned, one call consumed, two logs. -/
theorem strategy_agent_fallback (o : Oracle) (rawT : String)
    (st : PipeState) (sS : String)
    (hc : o.chats st.chatCalls = .ok sS)
    (hf : (_parse_json (pyStrip sS)).isOk = false) :
    strategy_agent o (trendFallback rawT) st =
      (.ok (strategyFallback (pyStrip sS)),
       ⟨st.events ++
          [.log "[Strategy Agent] 💡 Generating strategic opportunities ...",
           .log ("  Opportunity 1: " ++ pyStrip sS)],
        st.chatCalls + 1⟩) := by
  unfold strategy_agent
  rw [EmitM.run_bind_ok _ (run_emitLog _ _)]
  rw [EmitM.run_bind_ok _ (run_liftE_ok _ (show pyGet (trendFallback rawT)
    "trends" (.arr []) = .ok (.arr [.str rawT]) from rfl))]
  rw [EmitM.run_bind_ok _ (run_liftE_ok _ (show pyIter (.arr [.str rawT]) =
    .ok [.str rawT] from rfl))]
  rw [EmitM.run_bind_ok _ (run_liftE_ok _ (show pyGet (trendFallback rawT)
    "sentiment_shifts" (.arr []) = .ok (.arr [.str sentinel]) from rfl))]
  rw [EmitM.run_bind_ok _ (run_liftE_ok _ (show pyIter (.arr [.str sentinel]) =
    .ok [.str sentinel] from rfl))]
  rw [EmitM.run_bind_ok _ (run_chat_ok o _ _
    ⟨st.events ++ [Event.log "[Strategy Agent] 💡 Generating strategic opportunities ..."],
     st.chatCalls⟩ _ hc)]
  rw [EmitM.run_bind_ok _ (run_liftE_ok _ (strategyExtract_fallback _ hf))]
  rw [EmitM.run_bind_ok _ (run_liftE_ok _ (show pyGet (strategyFallback (pyStrip sS))
    "opportunities" (.arr []) = .ok (.arr [.str (pyStrip sS)]) from rfl))]
  rw [EmitM.run_bind_ok _ (run_liftE_ok _ (show pyIter (.arr [.str (pyStrip sS)]) =
    .ok [.str (pyStrip sS)] from rfl))]
  rw [EmitM.run_bind_ok _ (show logEnum "  Opportunity " 1 [.str (pyStrip sS)] _ =
    (.ok (), _) from rfl)]
  rw [EmitM.run_pure]
  simp
  rfl

/-- Risk stage, fed the Trend and Strategy fallbacks, on a response that
fails to decode: the fallback value is returned, one call consumed, two
logs. -/
theorem risk_agent_fallback (o : Oracle) (rawT rawS : String)
    (st : PipeState) (sR : String)
    (hc : o.chats st.chatCalls = .ok sR)
    (hf : (_parse_json (pyStrip sR)).isOk = false) :
    risk_agent o (trendFallback rawT) (strategyFallback rawS) st =
      (.ok (riskFallback (pyStrip sR)),
       ⟨st.events ++
          [.log "[Risk Agent] ⚠️  Identifying risks and weak signals ...",
           .log ("  Risk 1: " ++ pyStrip sR)],
        st.chatCalls + 1⟩) := by
  unfold risk_agent
  rw [EmitM.run_bind_ok _ (run_emitLog _ _)]
  rw [EmitM.run_bind_ok _ (run_liftE_ok _ (show pyGet (trendFallback rawT)
    "trends" (.arr []) = .ok (.arr [.str rawT]) from rfl))]
  rw [EmitM.run_bind_ok _ (run_liftE_ok _ (show pyIter (.arr [.str rawT]) =
    .ok [.str rawT] from rfl))]
  rw [EmitM.run_bind_ok _ (run_liftE_ok _ (show pyGet (strategyFallback rawS)
    "recommendations" (.arr []) = .ok (.arr [.str sentinel]) from rfl))]
  rw [EmitM.run_bind_ok _ (run_liftE_ok _ (show pyIter (.arr [.str sentinel]) =
    .ok [.str sentinel] from rfl))]
  rw [EmitM.run_bind_ok _ (run_chat_ok o _ _
    ⟨st.events ++ [Event.log "[Risk Agent] ⚠️  Identifying risks and weak signals ..."],
     st.chatCalls⟩ _ hc)]
  rw [EmitM.run_bind_ok _ (run_liftE_ok _ (riskExtract_fallback _ hf))]
  rw [EmitM.run_bind_ok _ (run_liftE_ok _ (show pyGet (riskFallback (pyStrip sR))
    "risks" (.arr []) = .ok (.arr [.str (pyStrip sR)]) from rfl))]
  rw [EmitM.run_bind_ok _ (run_liftE_ok _ (show pyIter (.arr [.str (pyStrip sR)]) =
    .ok [.str (pyStrip sR)] from rfl))]
  rw [EmitM.run_bind_ok _ (show logEnum "  Risk " 1 [.str (pyStrip sR)] _ =
    (.ok (), _) from rfl)]
  rw [EmitM.run_pure]
  simp
  rfl

/-- The Voice stage when its reasoning call succeeds: returns the stripped
script, one call consumed, one log. -/
theorem voice_agent_ok (o : Oracle) (txt : String) (st : PipeState) (sV : String)
    (hc : o.chats st.chatCalls = .ok sV) :
    voice_agent o txt st =
      (.ok (pyStrip sV),
       ⟨st.events ++ [.log "[Voice Agent] 🎙️  Writing voice script ..."],
        st.chatCalls + 1⟩) := by
  unfold voice_agent
  rw [EmitM.run_bind_ok _ (run_emitLog _ _)]
  rw [EmitM.run_bind_ok _ (run_chat_ok o _ _
    ⟨st.events ++ [Event.log "[Voice Agent] 🎙️  Writing voice script ..."],
     st.chatCalls⟩ _ hc)]
  rw [EmitM.run_pure]

/-- Conclusions that follow when a run's queue is log events followed by a
single `done` event and the sentinel. -/
theorem done_shape_conclusions (xs : List (Option Event)) (Lpre : List Event)
    (r : Report) (hx : xs = (Lpre ++ [Event.done r]).map some ++ [none])
    (hall : Lpre.all Event.isLogB = true) :
    xs.countP itemErrorB = 0 ∧ xs.countP itemDoneB = 1 ∧
    doneReport xs = some r ∧ xs.getLast? = some none ∧
    (consume xs).getLast?.map Event.isDoneB = some true := by
  subst hx
  obtain ⟨he, hd⟩ := all_logs_counts Lpre hall
  refine ⟨?_, ?_, ?_, ?_, ?_⟩
  · simp only [List.map_append, List.countP_append, he, List.countP_cons,
      List.countP_nil, List.map_cons, List.map_nil]
    rfl
  · simp only [List.map_append, List.countP_append, hd, List.countP_cons,
      List.countP_nil, List.map_cons, List.map_nil]
    rfl
  · rw [List.map_append, List.append_assoc, all_logs_doneReport Lpre hall]
    rfl
  · simp
  · rw [show (Lpre ++ [Event.done r]).map some ++ [none] =
      (Lpre ++ [Event.done r]).map some ++ none :: [] from rfl,
      consume_map_some]
    simp [Event.isDoneB]

/-- C1 (amended): a Trend/Strategy/Risk reasoning response that fails to
*decode* (malformed syntax) is recovered locally by the extractor's
fallback and never surfaces as an error event: with all three structured
responses failing to decode and every reasoning call succeeding, the run
emits no error event, continues with the degraded fallback content through
the remaining stages (Voice included when requested), and terminates with a
done event carrying the three fallback values, followed by the sentinel.
(A response that decodes to a non-mapping top-level shape is *not*
recovered — see the counterexample.) -/
theorem C1_amended_malformed_syntax_recovered :
    ∀ (o : Oracle) (t : String) (iv : Bool) (hits : List Hit) (sT sS sR : String),
      o.search = .ok hits → hits ≠ [] →
      (∀ i, i < (hits.take MAX_ARTICLES).length → (o.chats i).isOk = true) →
      o.chats (hits.take MAX_ARTICLES).length = .ok sT →
      (_parse_json (pyStrip sT)).isOk = false →
      o.chats ((hits.take MAX_ARTICLES).length + 1) = .ok sS →
      (_parse_json (pyStrip sS)).isOk = false →
      o.chats ((hits.take MAX_ARTICLES).length + 2) = .ok sR →
      (_parse_json (pyStrip sR)).isOk = false →
      (iv = true → (o.chats ((hits.take MAX_ARTICLES).length + 3)).isOk = true) →
      (runPipeline o t iv).countP itemErrorB = 0 ∧
      (runPipeline o t iv).countP itemDoneB = 1 ∧
      (doneReport (runPipeline o t iv)).map
          (fun r => (r.trends, r.strategy, r.risks)) =
        some (trendFallback (pyStrip sT), strategyFallback (pyStrip sS),
          riskFallback (pyStrip sR)) ∧
      (runPipeline o t iv).getLast? = some none ∧
      (consume (runPipeline o t iv)).getLast?.map Event.isDoneB = some true := by
  intro o t iv hits sT sS sR hsearch hne hok ht hft hs hfs hr hfr hv
  obtain ⟨arts, d, hloop, hdall, hlen⟩ := dataLoop_all_ok o (hits.take MAX_ARTICLES)
    ⟨[Event.log ("🚀 Pipeline started for topic: '" ++ t ++ "'"),
      Event.log "🔍 [Data Agent] Searching for recent news...",
      Event.log ("[Data Agent] 🔍 Searching news for: '" ++ t ++ "' ...")], 0⟩
    (by intro i hi; simpa using hok i hi)
  have hone : hits.isEmpty = false := by
    cases hits with
    | nil => exact absurd rfl hne
    | cons a b => rfl
  have hklen : 0 < (hits.take MAX_ARTICLES).length := by
    cases hits with
    | nil => exact absurd rfl hne
    | cons a b => simp [MAX_ARTICLES]
  have hartsne : arts.isEmpty = false := by
    cases arts with
    | nil =>
      rw [← hlen] at hklen
      simp at hklen
    | cons x xs => rfl
  have hda : data_agent o t
      ⟨[Event.log ("🚀 Pipeline started for topic: '" ++ t ++ "'"),
        Event.log "🔍 [Data Agent] Searching for recent news..."], 0⟩ =
      (.ok arts,
       ⟨[Event.log ("🚀 Pipeline started for topic: '" ++ t ++ "'"),
         Event.log "🔍 [Data Agent] Searching for recent news...",
         Event.log ("[Data Agent] 🔍 Searching news for: '" ++ t ++ "' ...")] ++ d,
        (hits.take MAX_ARTICLES).length⟩) := by
    unfold data_agent
    rw [EmitM.run_bind_ok _ (run_emitLog _ _)]
    rw [EmitM.run_bind_ok _ (run_liftE_ok _ hsearch)]
    simp only [hone, Bool.false_eq_true, if_false, List.cons_append, List.nil_append]
    rw [hloop]
    simp
  rcases iv with _ | _
  · -- include_voice = false
    have hbody : runBody o t false initState =
        (.ok (),
         ⟨([Event.log ("🚀 Pipeline started for topic: '" ++ t ++ "'"),
            Event.log "🔍 [Data Agent] Searching for recent news...",
            Event.log ("[Data Agent] 🔍 Searching news for: '" ++ t ++ "' ...")] ++ d ++
           [Event.log "📈 [Trend Agent] Detecting market trends and sentiment shifts...",
            Event.log "[Trend Agent] 📈 Detecting trends and sentiment shifts ...",
            Event.log ("  Trend 1: " ++ pyStrip sT),
            Event.log "💡 [Strategy Agent] Generating strategic opportunities...",
            Event.log "[Strategy Agent] 💡 Generating strategic opportunities ...",
            Event.log ("  Opportunity 1: " ++ pyStrip sS),
            Event.log "⚠️  [Risk Agent] Identifying risks and weak signals...",
            Event.log "[Risk Agent] ⚠️  Identifying risks and weak signals ...",
            Event.log ("  Risk 1: " ++ pyStrip sR),
            Event.log "✅ Pipeline complete."]) ++
           [Event.done ⟨t, arts, trendFallback (pyStrip sT),
             strategyFallback (pyStrip sS), riskFallback (pyStrip sR), none⟩],
          (hits.take MAX_ARTICLES).length + 3⟩) := by
      unfold runBody
      rw [EmitM.run_bind_ok _ (run_emitLog _ _)]
      rw [EmitM.run_bind_ok _ (run_emitLog _ _)]
      simp only [initState, List.nil_append, List.cons_append]
      rw [EmitM.run_bind_ok _ hda]
      simp only [hartsne, Bool.false_eq_true, if_false]
      rw [EmitM.run_bind_ok _ (run_emitLog _ _)]
      rw [EmitM.run_bind_ok _ (trend_agent_fallback o arts _ sT ht hft)]
      rw [EmitM.run_bind_ok _ (run_emitLog _ _)]
      rw [EmitM.run_bind_ok _ (strategy_agent_fallback o (pyStrip sT) _ sS hs hfs)]
      rw [EmitM.run_bind_ok _ (run_emitLog _ _)]
      rw [EmitM.run_bind_ok _ (risk_agent_fallback o (pyStrip sT) (pyStrip sS) _ sR hr hfr)]
      rw [EmitM.run_bind_ok _ (EmitM.run_pure _ _)]
      rw [EmitM.run_bind_ok _ (run_emitLog _ _)]
      rw [run_emitEvent]
      simp [List.append_assoc]
    have hq : runPipeline o t false =
        (([Event.log ("🚀 Pipeline started for topic: '" ++ t ++ "'"),
           Event.log "🔍 [Data Agent] Searching for recent news...",
           Event.log ("[Data Agent] 🔍 Searching news for: '" ++ t ++ "' ...")] ++ d ++
          [Event.log "📈 [Trend Agent] Detecting market trends and sentiment shifts...",
           Event.log "[Trend Agent] 📈 Detecting trends and sentiment shifts ...",
           Event.log ("  Trend 1: " ++ pyStrip sT),
           Event.log "💡 [Strategy Agent] Generating strategic opportunities...",
           Event.log "[Strategy Agent] 💡 Generating strategic opportunities ...",
           Event.log ("  Opportunity 1: " ++ pyStrip sS),
           Event.log "⚠️  [Risk Agent] Identifying risks and weak signals...",
           Event.log "[Risk Agent] ⚠️  Identifying risks and weak signals ...",
           Event.log ("  Risk 1: " ++ pyStrip sR),
           Event.log "✅ Pipeline complete."]) ++
          [Event.done ⟨t, arts, trendFallback (pyStrip sT),
            strategyFallback (pyStrip sS), riskFallback (pyStrip sR), none⟩]).map some ++
        [none] := by
      unfold runPipeline
      rw [hbody]
    have hall : (([Event.log ("🚀 Pipeline started for topic: '" ++ t ++ "'"),
        Event.log "🔍 [Data Agent] Searching for recent news...",
        Event.log ("[Data Agent] 🔍 Searching news for: '" ++ t ++ "' ...")] ++ d ++
        [Event.log "📈 [Trend Agent] Detecting market trends and sentiment shifts...",
         Event.log "[Trend Agent] 📈 Detecting trends and sentiment shifts ...",
         Event.log ("  Trend 1: " ++ pyStrip sT),
         Event.log "💡 [Strategy Agent] Generating strategic opportunities...",
         Event.log "[Strategy Agent] 💡 Generating strategic opportunities ...",
         Event.log ("  Opportunity 1: " ++ pyStrip sS),
         Event.log "⚠️  [Risk Agent] Identifying risks and weak signals...",
         Event.log "[Risk Agent] ⚠️  Identifying risks and weak signals ...",
         Event.log ("  Risk 1: " ++ pyStrip sR),
         Event.log "✅ Pipeline complete."])).all Event.isLogB = true := by
      simp only [List.all_append, Bool.and_eq_true]
      exact ⟨⟨rfl, hdall⟩, rfl⟩
    obtain ⟨c1, c2, c3, c4, c5⟩ := done_shape_conclusions _ _ _ hq hall
    exact ⟨c1, c2, by rw [c3]; rfl, c4, c5⟩
  · -- include_voice = true
    rcases hcv : o.chats ((hits.take MAX_ARTICLES).length + 3) with e | sV
    · have := hv rfl
      rw [hcv] at this
      simp [Except.isOk, Except.toBool] at this
    · have hbody : runBody o t true initState =
          (.ok (),
           ⟨([Event.log ("🚀 Pipeline started for topic: '" ++ t ++ "'"),
              Event.log "🔍 [Data Agent] Searching for recent news...",
              Event.log ("[Data Agent] 🔍 Searching news for: '" ++ t ++ "' ...")] ++ d ++
             [Event.log "📈 [Trend Agent] Detecting market trends and sentiment shifts...",
              Event.log "[Trend Agent] 📈 Detecting trends and sentiment shifts ...",
              Event.log ("  Trend 1: " ++ pyStrip sT),
              Event.log "💡 [Strategy Agent] Generating strategic opportunities...",
              Event.log "[Strategy Agent] 💡 Generating strategic opportunities ...",
              Event.log ("  Opportunity 1: " ++ pyStrip sS),
              Event.log "⚠️  [Risk Agent] Identifying risks and weak signals...",
              Event.log "[Risk Agent] ⚠️  Identifying risks and weak signals ...",
              Event.log ("  Risk 1: " ++ pyStrip sR),
              Event.log "🎙️  [Voice Agent] Writing broadcast script...",
              Event.log "[Voice Agent] 🎙️  Writing voice script ...",
              Event.log "✅ Pipeline complete."]) ++
             [Event.done ⟨t, arts, trendFallback (pyStrip sT),
               strategyFallback (pyStrip sS), riskFallback (pyStrip sR),
               some (pyStrip sV)⟩],
            (hits.take MAX_ARTICLES).length + 4⟩) := by
        unfold runBody
        rw [EmitM.run_bind_ok _ (run_emitLog _ _)]
        rw [EmitM.run_bind_ok _ (run_emitLog _ _)]
        simp only [initState, List.nil_append, List.cons_append]
        rw [EmitM.run_bind_ok _ hda]
        simp only [hartsne, Bool.false_eq_true, if_false]
        rw [EmitM.run_bind_ok _ (run_emitLog _ _)]
        rw [EmitM.run_bind_ok _ (trend_agent_fallback o arts _ sT ht hft)]
        rw [EmitM.run_bind_ok _ (run_emitLog _ _)]
        rw [EmitM.run_bind_ok _ (strategy_agent_fallback o (pyStrip sT) _ sS hs hfs)]
        rw [EmitM.run_bind_ok _ (run_emitLog _ _)]
        rw [EmitM.run_bind_ok _ (risk_agent_fallback o (pyStrip sT) (pyStrip sS) _ sR hr hfr)]
        rw [if_pos trivial]
        rw [EmitM.run_bind_ok _ (run_emitLog _ _)]
        rw [EmitM.run_bind_ok _ (run_liftE_ok _ (show (pyGet (trendFallback (pyStrip sT))
          "trends" (.arr [])).bind (pyJoin " | ") = .ok (pyStrip sT) from rfl))]
        rw [EmitM.run_bind_ok _ (run_liftE_ok _ (show (pyGet (strategyFallback (pyStrip sS))
          "opportunities" (.arr [])).bind (pyJoin "; ") = .ok (pyStrip sS) from rfl))]
        rw [EmitM.run_bind_ok _ (run_liftE_ok _ (show (pyGet (riskFallback (pyStrip sR))
          "risks" (.arr [])).bind (pyJoin "; ") = .ok (pyStrip sR) from rfl))]
        rw [EmitM.run_bind_ok _ (voice_agent_ok o _ _ sV hcv)]
        rw [EmitM.run_bind_ok _ (EmitM.run_pure _ _)]
        rw [EmitM.run_bind_ok _ (run_emitLog _ _)]
        rw [run_emitEvent]
        simp [List.append_assoc]
      have hq : runPipeline o t true =
          (([Event.log ("🚀 Pipeline started for topic: '" ++ t ++ "'"),
             Event.log "🔍 [Data Agent] Searching for recent news...",
             Event.log ("[Data Agent] 🔍 Searching news for: '" ++ t ++ "' ...")] ++ d ++
            [Event.log "📈 [Trend Agent] Detecting market trends and sentiment shifts...",
             Event.log "[Trend Agent] 📈 Detecting trends and sentiment shifts ...",
             Event.log ("  Trend 1: " ++ pyStrip sT),
             Event.log "💡 [Strategy Agent] Generating strategic opportunities...",
             Event.log "[Strategy Agent] 💡 Generating strategic opportunities ...",
             Event.log ("  Opportunity 1: " ++ pyStrip sS),
             Event.log "⚠️  [Risk Agent] Identifying risks and weak signals...",
             Event.log "[Risk Agent] ⚠️  Identifying risks and weak signals ...",
             Event.log ("  Risk 1: " ++ pyStrip sR),
             Event.log "🎙️  [Voice Agent] Writing broadcast script...",
             Event.log "[Voice Agent] 🎙️  Writing voice script ...",
             Event.log "✅ Pipeline complete."]) ++
            [Event.done ⟨t, arts, trendFallback (pyStrip sT),
              strategyFallback (pyStrip sS), riskFallback (pyStrip sR),
              some (pyStrip sV)⟩]).map some ++ [none] := by
        unfold runPipeline
        rw [hbody]
      have hall : (([Event.log ("🚀 Pipeline started for topic: '" ++ t ++ "'"),
          Event.log "🔍 [Data Agent] Searching for recent news...",
          Event.log ("[Data Agent] 🔍 Searching news for: '" ++ t ++ "' ...")] ++ d ++
          [Event.log "📈 [Trend Agent] Detecting market trends and sentiment shifts...",
           Event.log "[Trend Agent] 📈 Detecting trends and sentiment shifts ...",
           Event.log ("  Trend 1: " ++ pyStrip sT),
           Event.log "💡 [Strategy Agent] Generating strategic opportunities...",
           Event.log "[Strategy Agent] 💡 Generating strategic opportunities ...",
           Event.log ("  Opportunity 1: " ++ pyStrip sS),
           Event.log "⚠️  [Risk Agent] Identifying risks and weak signals...",
           Event.log "[Risk Agent] ⚠️  Identifying risks and weak signals ...",
           Event.log ("  Risk 1: " ++ pyStrip sR),
           Event.log "🎙️  [Voice Agent] Writing broadcast script...",
           Event.log "[Voice Agent] 🎙️  Writing voice script ...",
           Event.log "✅ Pipeline complete."])).all Event.isLogB = true := by
        simp only [List.all_append, Bool.and_eq_true]
        exact ⟨⟨rfl, hdall⟩, rfl⟩
      obtain ⟨c1, c2, c3, c4, c5⟩ := done_shape_conclusions _ _ _ hq hall
      exact ⟨c1, c2, by rw [c3]; rfl, c4, c5⟩

/-- A concrete oracle for the C1 witness: one hit, and every structured
response is un-fenced plain prose. -/
def oracleC1w : Oracle :=
  ⟨.ok [⟨some "T", some "U", some "C", none⟩],
   fun i => if i = 0 then .ok "sum" else .ok "plain prose"⟩

/-- Witness for the amended C1 at a concrete run whose Trend, Strategy and
Risk responses are all un-fenced plain prose. -/
theorem C1_amended_malformed_syntax_recovered_witness :
    (runPipeline oracleC1w "ai" true).countP itemErrorB = 0 ∧
    (runPipeline oracleC1w "ai" true).countP itemDoneB = 1 ∧
    (doneReport (runPipeline oracleC1w "ai" true)).map
        (fun r => (r.trends, r.strategy, r.risks)) =
      some (trendFallback (pyStrip "plain prose"),
        strategyFallback (pyStrip "plain prose"),
        riskFallback (pyStrip "plain prose")) ∧
    (runPipeline oracleC1w "ai" true).getLast? = some none ∧
    (consume (runPipeline oracleC1w "ai" true)).getLast?.map Event.isDoneB =
      some true :=
  C1_amended_malformed_syntax_recovered oracleC1w "ai" true
    [⟨some "T", some "U", some "C", none⟩] "plain prose" "plain prose" "plain prose"
    rfl (by decide) (by decide) rfl (by decide) rfl (by decide) rfl (by decide)
    (fun _ => by decide)

/-! ### C8: `include_voice = false` runs -/

/-- The progress message the executor emits before the Voice stage. -/
def voiceMsgA : String := "🎙️  [Voice Agent] Writing broadcast script..."

/-- The progress message `voice_agent` itself emits. -/
def voiceMsgB : String := "[Voice Agent] 🎙️  Writing voice script ..."

/-- Queue-item check for C8: no Voice-stage progress message, and any done
event's report carries no voice script. -/
def noVoiceItemB : Option Event → Bool
  | some (.log s) => !(s == voiceMsgA || s == voiceMsgB)
  | some (.done r) => r.voice_script.isNone
  | _ => true

/-- The event-level version of `noVoiceItemB`. -/
def c8SafeB : Event → Bool
  | .log s => !(s == voiceMsgA || s == voiceMsgB)
  | .error _ => true
  | .done r => r.voice_script.isNone

/-- A computation only appends events satisfying `c8SafeB`. -/
def EmitsSafe (m : EmitM α) : Prop :=
  ∀ st, ∃ dl, ((m st).2).events = st.events ++ dl ∧ dl.all c8SafeB = true

theorem emitsSafe_pure (a : α) : EmitsSafe (pure a : EmitM α) := by
  intro st
  exact ⟨[], by simp [EmitM.run_pure], rfl⟩

theorem emitsSafe_liftE (r : Except PyErr α) : EmitsSafe (liftE r) := by
  intro st
  exact ⟨[], by simp [run_liftE], rfl⟩

theorem emitsSafe_chat (o : Oracle) (sys usr : String) :
    EmitsSafe (_chat o sys usr) := by
  intro st
  refine ⟨[], ?_, rfl⟩
  rw [run_chat]
  cases o.chats st.chatCalls <;> simp

theorem emitsSafe_emitEvent (ev : Event) (h : c8SafeB ev = true) :
    EmitsSafe (emitEvent ev) := by
  intro st
  exact ⟨[ev], by simp [run_emitEvent], by simp [h]⟩

theorem emitsSafe_emitLog (s : String) (h : c8SafeB (.log s) = true) :
    EmitsSafe (emitLog s) :=
  emitsSafe_emitEvent _ h

theorem emitsSafe_bind {m : EmitM α} {f : α → EmitM β}
    (hm : EmitsSafe m) (hf : ∀ a, EmitsSafe (f a)) : EmitsSafe (m >>= f) := by
  intro st
  rcases hms : m st with ⟨res, st1⟩
  obtain ⟨d1, he1, ha1⟩ := hm st
  rw [hms] at he1
  cases res with
  | error e =>
    rw [EmitM.run_bind_err f hms]
    exact ⟨d1, he1, ha1⟩
  | ok a =>
    rw [EmitM.run_bind_ok f hms]
    obtain ⟨d2, he2, ha2⟩ := hf a st1
    refine ⟨d1 ++ d2, ?_, ?_⟩
    · rw [he2, he1, List.append_assoc]
    · simp only [List.all_append, Bool.and_eq_true]
      exact ⟨ha1, ha2⟩

/-- A string with a concrete two-character prefix differs from any string
with different first two characters. -/
theorem ne_of_prefix_take (P x q : String) (hn : 2 ≤ P.data.length)
    (h : P.data.take 2 ≠ q.data.take 2) : P ++ x ≠ q := by
  intro he
  apply h
  have hd : (P ++ x).data = P.data ++ x.data := rfl
  have h2 : (P.data ++ x.data).take 2 = q.data.take 2 := by rw [← hd, he]
  rw [List.take_append_of_le_length hn] at h2
  exact h2

theorem c8Safe_log_of_ne (s : String) (h1 : s ≠ voiceMsgA) (h2 : s ≠ voiceMsgB) :
    c8SafeB (.log s) = true := by
  simp [c8SafeB, h1, h2]

/-- A log whose first two characters differ from both Voice messages is
safe. -/
theorem c8Safe_prefixed (P x : String) (hlen : 2 ≤ P.data.length)
    (hA : P.data.take 2 ≠ voiceMsgA.data.take 2)
    (hB : P.data.take 2 ≠ voiceMsgB.data.take 2) :
    c8SafeB (.log (P ++ x)) = true :=
  c8Safe_log_of_ne _ (ne_of_prefix_take P x _ hlen hA) (ne_of_prefix_take P x _ hlen hB)

/-- A log whose first two characters differ from both Voice messages is
safe. -/
theorem c8Safe_log_take2 (s : String)
    (hA : s.data.take 2 ≠ voiceMsgA.data.take 2)
    (hB : s.data.take 2 ≠ voiceMsgB.data.take 2) :
    c8SafeB (.log s) = true :=
  c8Safe_log_of_ne s (fun he => hA (by rw [he])) (fun he => hB (by rw [he]))

theorem take2_cx (c x : String) (h : 2 ≤ c.data.length) :
    (c ++ x).data.take 2 = c.data.take 2 := List.take_append_of_le_length h

theorem take2_cxy (c x y : String) (h : 2 ≤ c.data.length) :
    ((c ++ x) ++ y).data.take 2 = c.data.take 2 := by
  have h1 : 2 ≤ (c ++ x).data.length := by
    show 2 ≤ (c.data ++ x.data).length
    simp only [List.length_append]
    omega
  calc ((c ++ x) ++ y).data.take 2 = (c ++ x).data.take 2 :=
        List.take_append_of_le_length h1
    _ = c.data.take 2 := List.take_append_of_le_length h

theorem take2_cxyz (c x y z : String) (h : 2 ≤ c.data.length) :
    (((c ++ x) ++ y) ++ z).data.take 2 = c.data.take 2 := by
  have h1 : 2 ≤ ((c ++ x) ++ y).data.length := by
    show 2 ≤ ((c.data ++ x.data) ++ y.data).length
    simp only [List.length_append]
    omega
  calc (((c ++ x) ++ y) ++ z).data.take 2 = ((c ++ x) ++ y).data.take 2 :=
        List.take_append_of_le_length h1
    _ = c.data.take 2 := take2_cxy c x y h

theorem emitsSafe_logEnum (label : String)
    (hA : label.data.take 2 ≠ voiceMsgA.data.take 2)
    (hB : label.data.take 2 ≠ voiceMsgB.data.take 2)
    (hlen : 2 ≤ label.data.length) :
    ∀ (items : List Json) (i : Nat), EmitsSafe (logEnum label i items) := by
  intro items
  induction items with
  | nil => intro i; exact emitsSafe_pure ()
  | cons t rest ih =>
    intro i
    have heq : logEnum label i (t :: rest) =
        (emitLog (label ++ toString i ++ ": " ++ pyStr t) >>= fun _ =>
          logEnum label (i + 1) rest) := rfl
    rw [heq]
    refine emitsSafe_bind (emitsSafe_emitLog _ (c8Safe_log_take2 _ ?_ ?_))
      (fun _ => ih (i + 1))
    · rw [take2_cxyz label _ _ _ hlen]
      exact hA
    · rw [take2_cxyz label _ _ _ hlen]
      exact hB

theorem emitsSafe_dataLoop (o : Oracle) :
    ∀ l : List Hit, EmitsSafe (dataLoop o l) := by
  intro l
  induction l with
  | nil => exact emitsSafe_pure []
  | cons hd tl ih =>
    have heq : dataLoop o (hd :: tl) =
        (_chat o
          "You are a concise financial news analyst. Summarise the article in one sentence."
          ("Article title: " ++ hd.title.getD "No title" ++ "\n\nContent: " ++
            strTake 1500 (hd.content.getD (hd.snippet.getD ""))) >>= fun summary =>
         emitLog ("  ✔ " ++ strTake 80 (hd.title.getD "No title")) >>= fun _ =>
         dataLoop o tl >>= fun tail =>
         pure ((⟨hd.title.getD "No title", hd.url.getD "Unknown source", summary⟩ :
           Article) :: tail)) := rfl
    rw [heq]
    refine emitsSafe_bind (emitsSafe_chat o _ _) fun summary => ?_
    refine emitsSafe_bind (emitsSafe_emitLog _ (c8Safe_log_take2 _ ?_ ?_)) fun _ =>
      emitsSafe_bind ih fun tail => emitsSafe_pure _
    · rw [take2_cx "  ✔ " _ (by decide)]
      decide
    · rw [take2_cx "  ✔ " _ (by decide)]
      decide

theorem emitsSafe_data_agent (o : Oracle) (t : String) :
    EmitsSafe (data_agent o t) := by
  unfold data_agent
  refine emitsSafe_bind (emitsSafe_emitLog _ (c8Safe_log_take2 _ ?_ ?_))
    (fun _ => emitsSafe_bind (emitsSafe_liftE _) fun raw_results => ?_)
  · rw [take2_cxy "[Data Agent] 🔍 Searching news for: '" _ _ (by decide)]
    decide
  · rw [take2_cxy "[Data Agent] 🔍 Searching news for: '" _ _ (by decide)]
    decide
  · by_cases hemp : raw_results.isEmpty
    · simp only [hemp, if_true]
      exact emitsSafe_bind
        (emitsSafe_emitLog _ (c8Safe_log_of_ne _ (by decide) (by decide)))
        fun _ => emitsSafe_pure []
    · simp only [hemp, Bool.false_eq_true, if_false]
      exact emitsSafe_dataLoop o _

theorem emitsSafe_trend_agent (o : Oracle) (articles : List Article) :
    EmitsSafe (trend_agent o articles) := by
  unfold trend_agent
  refine emitsSafe_bind
    (emitsSafe_emitLog _ (c8Safe_log_of_ne _ (by decide) (by decide)))
    fun _ => emitsSafe_bind (emitsSafe_chat o _ _)
    fun raw => emitsSafe_bind (emitsSafe_liftE _)
    fun result => emitsSafe_bind (emitsSafe_liftE _)
    fun ts => emitsSafe_bind (emitsSafe_liftE _)
    fun items => emitsSafe_bind
      (emitsSafe_logEnum "  Trend " (by decide) (by decide) (by decide) items 1)
    fun _ => emitsSafe_pure result

theorem emitsSafe_strategy_agent (o : Oracle) (trend_data : Json) :
    EmitsSafe (strategy_agent o trend_data) := by
  unfold strategy_agent
  refine emitsSafe_bind
    (emitsSafe_emitLog _ (c8Safe_log_of_ne _ (by decide) (by decide)))
    fun _ => emitsSafe_bind (emitsSafe_liftE _)
    fun tv => emitsSafe_bind (emitsSafe_liftE _)
    fun tItems => emitsSafe_bind (emitsSafe_liftE _)
    fun sv => emitsSafe_bind (emitsSafe_liftE _)
    fun sItems => emitsSafe_bind (emitsSafe_chat o _ _)
    fun raw => emitsSafe_bind (emitsSafe_liftE _)
    fun result => emitsSafe_bind (emitsSafe_liftE _)
    fun ov => emitsSafe_bind (emitsSafe_liftE _)
    fun oItems => emitsSafe_bind
      (emitsSafe_logEnum "  Opportunity " (by decide) (by decide) (by decide) oItems 1)
    fun _ => emitsSafe_pure result

theorem emitsSafe_risk_agent (o : Oracle) (trend_data strategy_data : Json) :
    EmitsSafe (risk_agent o trend_data strategy_data) := by
  unfold risk_agent
  refine emitsSafe_bind
    (emitsSafe_emitLog _ (c8Safe_log_of_ne _ (by decide) (by decide)))
    fun _ => emitsSafe_bind (emitsSafe_liftE _)
    fun tv => emitsSafe_bind (emitsSafe_liftE _)
    fun tItems => emitsSafe_bind (emitsSafe_liftE _)
    fun rv => emitsSafe_bind (emitsSafe_liftE _)
    fun rItems => emitsSafe_bind (emitsSafe_chat o _ _)
    fun raw => emitsSafe_bind (emitsSafe_liftE _)
    fun result => emitsSafe_bind (emitsSafe_liftE _)
    fun rks => emitsSafe_bind (emitsSafe_liftE _)
    fun rkItems => emitsSafe_bind
      (emitsSafe_logEnum "  Risk " (by decide) (by decide) (by decide) rkItems 1)
    fun _ => emitsSafe_pure result

/-- The whole `try:` body of a run created with `include_voice = false`
only writes events satisfying the C8 check: no Voice-stage progress
message, and a `done` report without a voice script. -/
theorem emitsSafe_runBody_noVoice (o : Oracle) (t : String) :
    EmitsSafe (runBody o t false) := by
  unfold runBody
  refine emitsSafe_bind (emitsSafe_emitLog _ (c8Safe_log_take2 _ ?_ ?_))
    (fun _ => emitsSafe_bind
      (emitsSafe_emitLog _ (c8Safe_log_of_ne _ (by decide) (by decide)))
      fun _ => emitsSafe_bind (emitsSafe_data_agent o t)
      fun articles => ?_)
  · rw [take2_cxy "🚀 Pipeline started for topic: '" _ _ (by decide)]
    decide
  · rw [take2_cxy "🚀 Pipeline started for topic: '" _ _ (by decide)]
    decide
  · by_cases hemp : articles.isEmpty
    · simp only [hemp, if_true]
      exact emitsSafe_emitEvent _ rfl
    · simp only [hemp, Bool.false_eq_true, if_false]
      refine emitsSafe_bind
        (emitsSafe_emitLog _ (c8Safe_log_of_ne _ (by decide) (by decide)))
        fun _ => emitsSafe_bind (emitsSafe_trend_agent o articles)
        fun trends => emitsSafe_bind
          (emitsSafe_emitLog _ (c8Safe_log_of_ne _ (by decide) (by decide)))
        fun _ => emitsSafe_bind (emitsSafe_strategy_agent o trends)
        fun strategy => emitsSafe_bind
          (emitsSafe_emitLog _ (c8Safe_log_of_ne _ (by decide) (by decide)))
        fun _ => emitsSafe_bind (emitsSafe_risk_agent o trends strategy)
        fun risks => ?_
      rw [show ((pure none : EmitM (Option String)) >>= fun y =>
          emitLog "✅ Pipeline complete." >>= fun _ =>
          emitEvent (Event.done ⟨t, articles, trends, strategy, risks, y⟩)) =
          (emitLog "✅ Pipeline complete." >>= fun _ =>
           emitEvent (Event.done ⟨t, articles, trends, strategy, risks, none⟩)) from
        funext fun st => EmitM.run_bind_ok _ (EmitM.run_pure _ _)]
      exact emitsSafe_bind
        (emitsSafe_emitLog _ (c8Safe_log_of_ne _ (by decide) (by decide)))
        fun _ => emitsSafe_emitEvent _ rfl

/-- `noVoiceItemB` on a proper event is the event-level check. -/
theorem noVoiceItemB_some (ev : Event) : noVoiceItemB (some ev) = c8SafeB ev := by
  cases ev <;> rfl

/-- `all` over the `some`-wrapped events is the event-level `all`. -/
theorem all_noVoice_map_some (l : List Event) :
    (l.map some).all noVoiceItemB = l.all c8SafeB := by
  induction l with
  | nil => rfl
  | cons e rest ih => simp [List.all_cons, ih, noVoiceItemB_some]

/-- C8: a run created with `include_voice = false` never emits a
Voice-stage progress event (neither the executor's Voice header nor
`voice_agent`'s own log line), and any done event's report carries no
voice script — on every terminal path. -/
theorem C8_noVoice_run :
    ∀ (o : Oracle) (t : String),
      (runPipeline o t false).all noVoiceItemB = true := by
  intro o t
  obtain ⟨dl, he, ha⟩ := emitsSafe_runBody_noVoice o t initState
  unfold runPipeline
  rcases hr : runBody o t false initState with ⟨res, stF⟩
  rw [hr] at he
  simp only [initState, List.nil_append] at he
  simp only [hr]
  cases res with
  | ok u =>
    simp only [List.all_append, List.all_map, Bool.and_eq_true]
    refine ⟨?_, rfl⟩
    rw [he, all_noVoice_map_some]
    exact ha
  | error e =>
    simp only [List.map_append, List.all_append, List.all_map, Bool.and_eq_true]
    refine ⟨⟨?_, rfl⟩, rfl⟩
    rw [he, all_noVoice_map_some]
    exact ha

/-! ### C5: serialize-then-extract round trip -/

/-- Hex digits round-trip through `hexDigit`/`hexVal`. -/
theorem hexVal_hexDigit : ∀ n, n < 16 → hexVal (hexDigit n) = some n := by decide


/-- Scanning a surrogate-pair escape recombines the astral code point. -/
theorem scanStr_surrogate (hi lo : Nat) (T cs rest : List Char)
    (hhi : 0xD800 ≤ hi ∧ hi ≤ 0xDBFF) (hlo : 0xDC00 ≤ lo ∧ lo ≤ 0xDFFF)
    (ih : scanStr T = .ok (cs, rest)) :
    scanStr ('\\' :: 'u' :: hex4 hi ++ ('\\' :: 'u' :: hex4 lo ++ T)) =
      .ok (Char.ofNat (0x10000 + (hi - 0xD800) * 1024 + (lo - 0xDC00)) :: cs, rest) := by
  rw [scanStr.eq_def]
  have e1 : ∀ m : Nat, hexVal (hexDigit (m / 4096 % 16)) = some (m / 4096 % 16) :=
    fun m => hexVal_hexDigit _ (by omega)
  have e2 : ∀ m : Nat, hexVal (hexDigit (m / 256 % 16)) = some (m / 256 % 16) :=
    fun m => hexVal_hexDigit _ (by omega)
  have e3 : ∀ m : Nat, hexVal (hexDigit (m / 16 % 16)) = some (m / 16 % 16) :=
    fun m => hexVal_hexDigit _ (by omega)
  have e4 : ∀ m : Nat, hexVal (hexDigit (m % 16)) = some (m % 16) :=
    fun m => hexVal_hexDigit _ (by omega)
  have hcombHi : hi / 4096 % 16 * 4096 + hi / 256 % 16 * 256 +
      hi / 16 % 16 * 16 + hi % 16 = hi := by omega
  have hcombLo : lo / 4096 % 16 * 4096 + lo / 256 % 16 * 256 +
      lo / 16 % 16 * 16 + lo % 16 = lo := by omega
  simp only [hex4, List.cons_append, List.nil_append, List.append_assoc]
  simp only [hex4At, e1, e2, e3, e4, hcombHi, hcombLo]
  rw [if_pos hhi]
  simp only [List.drop, pairLow, hex4At, e1, e2, e3, e4, hcombLo]
  rw [if_pos hlo]
  rw [ih]
  rfl

/-- Scanning a `\uXXXX` escape of a non-surrogate value yields that code
point. -/
theorem scanStr_bmp (v : Nat) (T cs rest : List Char) (hv : v < 0x10000)
    (hns1 : ¬(0xD800 ≤ v ∧ v ≤ 0xDBFF)) (hns2 : ¬(0xDC00 ≤ v ∧ v ≤ 0xDFFF))
    (ih : scanStr T = .ok (cs, rest)) :
    scanStr ('\\' :: 'u' :: hex4 v ++ T) = .ok (Char.ofNat v :: cs, rest) := by
  rw [scanStr.eq_def]
  have e1 : hexVal (hexDigit (v / 4096 % 16)) = some (v / 4096 % 16) :=
    hexVal_hexDigit _ (by omega)
  have e2 : hexVal (hexDigit (v / 256 % 16)) = some (v / 256 % 16) :=
    hexVal_hexDigit _ (by omega)
  have e3 : hexVal (hexDigit (v / 16 % 16)) = some (v / 16 % 16) :=
    hexVal_hexDigit _ (by omega)
  have e4 : hexVal (hexDigit (v % 16)) = some (v % 16) :=
    hexVal_hexDigit _ (by omega)
  have hcomb : v / 4096 % 16 * 4096 + v / 256 % 16 * 256 +
      v / 16 % 16 * 16 + v % 16 = v := by omega
  simp [hex4, hex4At, e1, e2, e3, e4, hcomb, scanCons, ih]
  rw [if_neg hns1, if_neg hns2]

/-- A character encoded by `escChar` is decoded back by the string
scanner, and scanning continues with the remaining input. -/
theorem scanStr_escChar (c : Char) (T cs rest : List Char)
    (ih : scanStr T = .ok (cs, rest)) :
    scanStr (escChar c ++ T) = .ok (c :: cs, rest) := by
  have hvv : c.toNat < 0xd800 ∨ (0xe000 ≤ c.toNat ∧ c.toNat < 0x110000) := c.valid
  unfold escChar
  split_ifs with h1 h2 h3 h4 h5 h6 h7 h8 h9
  · subst h1
    rw [scanStr.eq_def]
    simp [scanCons, ih]
  · subst h2
    rw [scanStr.eq_def]
    simp [scanCons, ih]
  · subst h3
    rw [scanStr.eq_def]
    simp [scanCons, ih]
  · subst h4
    rw [scanStr.eq_def]
    simp [scanCons, ih]
  · subst h5
    rw [scanStr.eq_def]
    simp [scanCons, ih]
  · have hc : c = Char.ofNat 8 := by
      have h := Char.ofNat_toNat c
      rw [h6] at h
      exact h.symm
    subst hc
    rw [scanStr.eq_def]
    simp [scanCons, ih]
  · have hc : c = Char.ofNat 12 := by
      have h := Char.ofNat_toNat c
      rw [h7] at h
      exact h.symm
    subst hc
    rw [scanStr.eq_def]
    simp [scanCons, ih]
  · rw [scanStr.eq_def]
    simp only [List.cons_append, List.nil_append]
    rw [if_neg h1, if_neg h2, if_neg (by omega), ih]
    rfl
  · -- basic-plane character, encoded `\uXXXX`
    rw [scanStr_bmp c.toNat T cs rest (by omega) (by omega) (by omega) ih,
      Char.ofNat_toNat]
  · -- astral character, encoded as a surrogate pair
    have hv16 : 0x10000 ≤ c.toNat := by omega
    have hvlt : c.toNat < 0x110000 := by omega
    have hres := scanStr_surrogate (0xD800 + (c.toNat - 0x10000) / 1024)
      (0xDC00 + (c.toNat - 0x10000) % 1024) T cs rest
      ⟨by omega, by omega⟩ ⟨by omega, by omega⟩ ih
    rw [show ('\\' :: 'u' :: hex4 (0xD800 + (c.toNat - 0x10000) / 1024) ++
        '\\' :: 'u' :: hex4 (0xDC00 + (c.toNat - 0x10000) % 1024)) ++ T =
        '\\' :: 'u' :: hex4 (0xD800 + (c.toNat - 0x10000) / 1024) ++
        ('\\' :: 'u' :: hex4 (0xDC00 + (c.toNat - 0x10000) % 1024) ++ T) by
      simp [List.append_assoc]]
    rw [hres]
    have hval : 0x10000 + (0xD800 + (c.toNat - 0x10000) / 1024 - 0xD800) * 1024 +
        (0xDC00 + (c.toNat - 0x10000) % 1024 - 0xDC00) = c.toNat := by omega
    rw [hval, Char.ofNat_toNat]

/-- The escaped body scans back to the original characters. -/
theorem scanStr_escBody :
    ∀ (cs rest : List Char),
      scanStr (cs.foldr (fun c acc => escChar c ++ acc) ('"' :: rest)) =
        .ok (cs, rest) := by
  intro cs
  induction cs with
  | nil =>
    intro rest
    rw [scanStr.eq_def]
    simp
  | cons c cs ih =>
    intro rest
    simp only [List.foldr_cons]
    exact scanStr_escChar c _ cs rest (ih rest)

/-- Folding the escape encoder over an extended accumulator. -/
theorem foldr_esc_append (cs i j : List Char) :
    (cs.foldr (fun c acc => escChar c ++ acc) i) ++ j =
      cs.foldr (fun c acc => escChar c ++ acc) (i ++ j) := by
  induction cs with
  | nil => rfl
  | cons c cs ih => simp only [List.foldr_cons, List.append_assoc, ih]

/-- `skipWs` ignores a leading space. -/
theorem skipWs_space (X : List Char) : skipWs (' ' :: X) = skipWs X := by
  simp [skipWs, List.dropWhile_cons, jsonWs]

/-- `skipWs` is the identity on input whose head is not JSON whitespace. -/
theorem skipWs_nows (c : Char) (X : List Char) (h : jsonWs c = false) :
    skipWs (c :: X) = c :: X := by
  simp [skipWs, List.dropWhile_cons, h]

/-- `parseVal` ignores a leading space. -/
theorem parseVal_space (f : Nat) (X : List Char) :
    parseVal f (' ' :: X) = parseVal f X := by
  cases f with
  | zero => rfl
  | succ f =>
    conv_lhs => rw [parseVal]
    conv_rhs => rw [parseVal]
    rw [skipWs_space]

/-- `parseElems` ignores a leading space. -/
theorem parseElems_space (f : Nat) (X : List Char) :
    parseElems f (' ' :: X) = parseElems f X := by
  cases f with
  | zero => rfl
  | succ f =>
    conv_lhs => rw [parseElems]
    conv_rhs => rw [parseElems]
    rw [parseVal_space]

/-- `parseMembers` ignores a leading space. -/
theorem parseMembers_space (f : Nat) (X : List Char) :
    parseMembers f (' ' :: X) = parseMembers f X := by
  cases f with
  | zero => rfl
  | succ f =>
    conv_lhs => rw [parseMembers]
    conv_rhs => rw [parseMembers]
    rw [skipWs_space]

/-- A serialized string literal parses back to the original string. -/
theorem parseVal_strLit (f : Nat) (s : String) (rest : List Char) :
    parseVal (f + 1) (strLit s ++ rest) = .ok (.str s, rest) := by
  have hsh : strLit s ++ rest =
      '"' :: s.data.foldr (fun c acc => escChar c ++ acc) ('"' :: rest) := by
    show '"' :: (s.data.foldr (fun c acc => escChar c ++ acc) ['"'] ++ rest) = _
    rw [foldr_esc_append]
    rfl
  rw [hsh, parseVal, skipWs_nows '"' _ (by decide)]
  simp [scanStr_escBody]

/-- The serialized elements of a non-empty string array parse back to the
original elements (consuming the closing bracket). -/
theorem parseElems_strs :
    ∀ (l : List String) (f : Nat) (rest : List Char),
      l ≠ [] → l.length + 1 ≤ f →
      parseElems f (dumpsList (l.map .str) ++ ']' :: rest) =
        .ok (l.map .str, rest) := by
  intro l
  induction l with
  | nil => intro f rest h; exact absurd rfl h
  | cons x l ih =>
    intro f rest _ hf
    obtain ⟨f1, rfl⟩ : ∃ f1, f = f1 + 1 := ⟨f - 1, by omega⟩
    simp only [List.length_cons] at hf
    obtain ⟨f2, rfl⟩ : ∃ f2, f1 = f2 + 1 := ⟨f1 - 1, by omega⟩
    cases l with
    | nil =>
      rw [parseElems]
      rw [show dumpsList ([x].map Json.str) = strLit x from rfl]
      rw [parseVal_strLit]
      rfl
    | cons y l =>
      rw [parseElems]
      rw [show dumpsList ((x :: y :: l).map Json.str) ++ ']' :: rest =
        strLit x ++ (',' :: ' ' :: (dumpsList ((y :: l).map Json.str) ++ ']' :: rest)) by
        simp [dumpsList, dumpsChars, List.append_assoc]]
      rw [parseVal_strLit]
      simp only []
      rw [show skipWs (',' :: ' ' :: (dumpsList ((y :: l).map Json.str) ++
        ']' :: rest)) = ',' :: ' ' :: (dumpsList ((y :: l).map Json.str) ++
        ']' :: rest) from skipWs_nows ',' _ (by decide)]
      simp only []
      rw [show parseElems (f2 + 1) (' ' :: (dumpsList ((y :: l).map Json.str) ++
        ']' :: rest)) = parseElems (f2 + 1) (dumpsList ((y :: l).map Json.str) ++
        ']' :: rest) from parseElems_space _ _]
      rw [ih (f2 + 1) rest (by simp) (by omega)]
      rfl

/-- A serialized array of strings parses back unchanged. -/
theorem parseVal_arrStrs :
    ∀ (xs : List String) (f : Nat) (rest : List Char),
      xs.length + 2 ≤ f →
      parseVal f (dumpsChars (.arr (xs.map .str)) ++ rest) =
        .ok (.arr (xs.map .str), rest) := by
  intro xs f rest hf
  obtain ⟨f1, rfl⟩ : ∃ f1, f = f1 + 1 := ⟨f - 1, by omega⟩
  cases xs with
  | nil =>
    rw [show dumpsChars (.arr ([].map Json.str)) ++ rest = '[' :: ']' :: rest from rfl]
    rw [parseVal, skipWs_nows '[' _ (by decide)]
    rfl
  | cons x xs =>
    obtain ⟨tl, htl⟩ : ∃ tl, dumpsList ((x :: xs).map Json.str) = '"' :: tl := by
      cases xs <;> exact ⟨_, rfl⟩
    rw [show dumpsChars (.arr ((x :: xs).map Json.str)) ++ rest =
      '[' :: (dumpsList ((x :: xs).map Json.str) ++ ']' :: rest) by
      simp [dumpsChars, List.append_assoc]]
    rw [parseVal, skipWs_nows '[' _ (by decide), htl]
    simp only []
    rw [if_pos trivial]
    rw [show skipWs ('"' :: tl ++ ']' :: rest) = '"' :: tl ++ ']' :: rest
      from skipWs_nows '"' _ (by decide)]
    rw [if_neg (by decide)]
    split
    · simp_all
    · rw [show (('"' :: tl : List Char)) ++ ']' :: rest =
        dumpsList ((x :: xs).map Json.str) ++ ']' :: rest by rw [htl]]
      rw [parseElems_strs (x :: xs) f1 rest (by simp) (by simp at hf ⊢; omega)]

/-- A stage shape: concrete keys bound to arrays of strings. -/
def shapePairs (ps : List (String × List String)) : List (String × Json) :=
  ps.map fun kv => (kv.1, .arr (kv.2.map .str))

/-- The serialized members of a non-empty shaped object parse back to the
original pair list (consuming the closing brace). -/
theorem parseMembers_shape :
    ∀ (ps : List (String × List String)) (f : Nat) (rest : List Char),
      ps ≠ [] →
      (ps.map fun kv => kv.2.length).sum + ps.length + 2 ≤ f →
      parseMembers f (dumpsPairs (shapePairs ps) ++ Char.ofNat 125 :: rest) =
        .ok (shapePairs ps, rest) := by
  intro ps
  induction ps with
  | nil => intro f rest h; exact absurd rfl h
  | cons kv ps ih =>
    obtain ⟨k, v⟩ := kv
    intro f rest _ hf
    simp only [List.map_cons, List.sum_cons, List.length_cons] at hf
    obtain ⟨f1, rfl⟩ : ∃ f1, f = f1 + 1 := ⟨f - 1, by omega⟩
    rw [parseMembers]
    cases ps with
    | nil =>
      rw [show dumpsPairs (shapePairs [(k, v)]) ++ Char.ofNat 125 :: rest =
        '"' :: (k.data.foldr (fun c acc => escChar c ++ acc)
          ('"' :: (':' :: ' ' :: (dumpsChars (.arr (v.map .str)) ++
            Char.ofNat 125 :: rest)))) by
        show ('"' :: k.data.foldr (fun c acc => escChar c ++ acc) ['"'] ++
          ':' :: ' ' :: dumpsChars (.arr (v.map .str))) ++ Char.ofNat 125 :: rest = _
        simp [foldr_esc_append, List.append_assoc]]
      rw [skipWs_nows '"' _ (by decide)]
      simp only []
      rw [scanStr_escBody]
      simp only []
      rw [skipWs_nows ':' _ (by decide)]
      simp only []
      rw [parseVal_space]
      rw [parseVal_arrStrs v f1 (Char.ofNat 125 :: rest) (by omega)]
      simp only []
      rw [skipWs_nows (Char.ofNat 125) _ (by decide)]
      rfl
    | cons kv2 ps =>
      rw [show dumpsPairs (shapePairs ((k, v) :: kv2 :: ps)) ++ Char.ofNat 125 :: rest =
        '"' :: (k.data.foldr (fun c acc => escChar c ++ acc)
          ('"' :: (':' :: ' ' :: (dumpsChars (.arr (v.map .str)) ++
            ',' :: ' ' :: (dumpsPairs (shapePairs (kv2 :: ps)) ++
              Char.ofNat 125 :: rest))))) by
        simp [shapePairs, dumpsPairs, strLit, foldr_esc_append,
          List.append_assoc]]
      rw [skipWs_nows '"' _ (by decide)]
      simp only []
      rw [scanStr_escBody]
      simp only []
      rw [skipWs_nows ':' _ (by decide)]
      simp only []
      rw [parseVal_space]
      rw [parseVal_arrStrs v f1 (',' :: ' ' :: (dumpsPairs (shapePairs (kv2 :: ps)) ++
        Char.ofNat 125 :: rest)) (by omega)]
      simp only []
      rw [skipWs_nows ',' _ (by decide)]
      simp only []
      rw [parseMembers_space]
      rw [ih f1 rest (by simp) (by simp only [List.map_cons, List.sum_cons,
        List.length_cons] at hf ⊢; omega)]
      rfl

/-- The escape encoder never shrinks its accumulator. -/
theorem foldr_esc_len (cs i : List Char) :
    i.length ≤ (cs.foldr (fun c acc => escChar c ++ acc) i).length := by
  induction cs with
  | nil => exact le_refl _
  | cons c cs ih => simp only [List.foldr_cons, List.length_append]; omega

/-- A serialized string literal has at least its two quotes. -/
theorem strLit_len (s : String) : 2 ≤ (strLit s).length := by
  have := foldr_esc_len s.data ['"']
  simp only [strLit, List.length_cons]
  simp at this ⊢
  omega

/-- Serialized array elements occupy at least one character each. -/
theorem dumpsList_strs_len :
    ∀ (v : List String), v.length ≤ (dumpsList (v.map .str)).length := by
  intro v
  induction v with
  | nil => simp [dumpsList]
  | cons x xs ih =>
    cases xs with
    | nil =>
      have := strLit_len x
      simp only [List.map_cons, List.map_nil, dumpsList, dumpsChars]
      simpa using by omega
    | cons y ys =>
      have h1 := strLit_len x
      simp only [List.map_cons, dumpsList, dumpsChars] at ih ⊢
      simp only [List.length_append, List.length_cons] at ih ⊢
      omega

/-- Length lower bound for serialized shaped members, used to discharge the
fuel bound supplied by `json_loads`. -/
theorem dumpsPairs_shape_len :
    ∀ (ps : List (String × List String)),
      (ps.map fun kv => kv.2.length).sum + ps.length ≤
        (dumpsPairs (shapePairs ps)).length := by
  intro ps
  induction ps with
  | nil => simp [shapePairs, dumpsPairs]
  | cons kv ps ih =>
    obtain ⟨k, v⟩ := kv
    have hk := strLit_len k
    have hv := dumpsList_strs_len v
    cases ps with
    | nil =>
      simp only [shapePairs, List.map_cons, List.map_nil, dumpsPairs, dumpsChars,
        List.sum_cons, List.sum_nil, List.length_cons, List.length_nil,
        List.length_append]
      simp
      omega
    | cons kv2 ps =>
      simp only [shapePairs, List.map_cons, dumpsPairs, dumpsChars,
        List.sum_cons, List.length_cons, List.length_append] at ih ⊢
      simp at ih ⊢
      omega

/-- A serialized shaped object parses back (through Python dict semantics
on its members). -/
theorem parseVal_objShape (ps : List (String × List String)) (f : Nat)
    (rest : List Char) (hne : ps ≠ [])
    (hf : (ps.map fun kv => kv.2.length).sum + ps.length + 3 ≤ f) :
    parseVal f (dumpsChars (.obj (shapePairs ps)) ++ rest) =
      .ok (.obj (pyDict (shapePairs ps)), rest) := by
  obtain ⟨f1, rfl⟩ : ∃ f1, f = f1 + 1 := ⟨f - 1, by omega⟩
  obtain ⟨tl, htl⟩ : ∃ tl, dumpsPairs (shapePairs ps) = '"' :: tl := by
    cases ps with
    | nil => exact absurd rfl hne
    | cons kv ps =>
      obtain ⟨k, v⟩ := kv
      cases ps <;> exact ⟨_, rfl⟩
  rw [show dumpsChars (.obj (shapePairs ps)) ++ rest =
    Char.ofNat 123 :: (dumpsPairs (shapePairs ps) ++ Char.ofNat 125 :: rest) by
    simp [dumpsChars, List.append_assoc]]
  rw [parseVal, skipWs_nows (Char.ofNat 123) _ (by decide), htl]
  simp only []
  rw [if_neg (by decide), if_neg (by decide), if_pos trivial]
  rw [show skipWs ('"' :: tl ++ Char.ofNat 125 :: rest) =
    '"' :: tl ++ Char.ofNat 125 :: rest from skipWs_nows '"' _ (by decide)]
  rw [if_neg (by simp)]
  rw [show (('"' :: tl : List Char)) ++ Char.ofNat 125 :: rest =
    dumpsPairs (shapePairs ps) ++ Char.ofNat 125 :: rest by rw [htl]]
  rw [parseMembers_shape ps f1 rest hne (by omega)]

/-- `pyStrip` is the identity on a braced character list. -/
theorem pyStrip_braced (X : List Char) :
    pyStrip ⟨Char.ofNat 123 :: (X ++ [Char.ofNat 125])⟩ =
      ⟨Char.ofNat 123 :: (X ++ [Char.ofNat 125])⟩ := by
  simp [pyStrip, List.dropWhile_cons, List.reverse_cons, List.reverse_append,
    show pyIsSpace (Char.ofNat 123) = false from rfl,
    show pyIsSpace (Char.ofNat 125) = false from rfl]

/-- `stripFences` is the identity on serialized-object text: no surrounding
whitespace and no markdown fences. -/
theorem stripFences_braced (X : List Char) :
    stripFences ⟨Char.ofNat 123 :: (X ++ [Char.ofNat 125])⟩ =
      ⟨Char.ofNat 123 :: (X ++ [Char.ofNat 125])⟩ := by
  rw [stripFences]
  simp only [pyStrip_braced]
  rw [show strStartsWith ⟨Char.ofNat 123 :: (X ++ [Char.ofNat 125])⟩ "```" = false by
    simp [strStartsWith, List.isPrefixOf]]
  simp only [Bool.false_eq_true, if_false]
  rw [show strEndsWith ⟨Char.ofNat 123 :: (X ++ [Char.ofNat 125])⟩ "```" = false by
    simp [strEndsWith, List.isPrefixOf]]
  simp

/-- `_parse_json` inverts `json_dumps` on a shaped object. -/
theorem _parse_json_shape (ps : List (String × List String)) (hne : ps ≠ []) :
    _parse_json (json_dumps (.obj (shapePairs ps))) =
      .ok (.obj (pyDict (shapePairs ps))) := by
  have hrepr : json_dumps (.obj (shapePairs ps)) =
      ⟨Char.ofNat 123 :: (dumpsPairs (shapePairs ps) ++ [Char.ofNat 125])⟩ := rfl
  rw [_parse_json, hrepr, stripFences_braced]
  rw [json_loads]
  have hlen := dumpsPairs_shape_len ps
  rw [show (String.mk (Char.ofNat 123 ::
      (dumpsPairs (shapePairs ps) ++ [Char.ofNat 125]))).data =
    dumpsChars (.obj (shapePairs ps)) ++ [] by simp [dumpsChars]]
  rw [parseVal_objShape ps _ [] hne (by
    simp only [List.length_append, List.length_cons, List.length_nil, dumpsChars,
      List.nil_append]
    omega)]
  rfl

/-- Python dict construction is the identity on two distinct keys. -/
theorem pyDict_pair2 (k1 k2 : String) (a b : Json) (h : k1 ≠ k2) :
    pyDict [(k1, a), (k2, b)] = [(k1, a), (k2, b)] := by
  simp [pyDict, dictInsert, h]

/-- Python dict construction is the identity on three distinct keys. -/
theorem pyDict_pair3 (k1 k2 k3 : String) (a b c : Json)
    (h12 : k1 ≠ k2) (h13 : k1 ≠ k3) (h23 : k2 ≠ k3) :
    pyDict [(k1, a), (k2, b), (k3, c)] = [(k1, a), (k2, b), (k3, c)] := by
  simp [pyDict, dictInsert, h12, h13, h23]

/-- C5: encode-then-extract round trip for all three structured stages. -/
theorem C5_roundtrip_extract (ts ss os rs ks ws us : List String) :
    trendExtract (json_dumps (.obj [("trends", .arr (ts.map .str)),
        ("sentiment_shifts", .arr (ss.map .str))])) =
      .ok (.obj [("trends", .arr (ts.map .str)),
        ("sentiment_shifts", .arr (ss.map .str))]) ∧
    strategyExtract (json_dumps (.obj [("opportunities", .arr (os.map .str)),
        ("recommendations", .arr (rs.map .str))])) =
      .ok (.obj [("opportunities", .arr (os.map .str)),
        ("recommendations", .arr (rs.map .str))]) ∧
    riskExtract (json_dumps (.obj [("risks", .arr (ks.map .str)),
        ("weak_signals", .arr (ws.map .str)),
        ("uncertainties", .arr (us.map .str))])) =
      .ok (.obj [("risks", .arr (ks.map .str)),
        ("weak_signals", .arr (ws.map .str)),
        ("uncertainties", .arr (us.map .str))]) := by
  refine ⟨?_, ?_, ?_⟩
  · rw [trendExtract,
      show (Json.obj [("trends", .arr (ts.map .str)),
        ("sentiment_shifts", .arr (ss.map .str))]) =
      .obj (shapePairs [("trends", ts), ("sentiment_shifts", ss)]) from rfl,
      _parse_json_shape _ (by simp)]
    simp only [shapePairs, List.map_cons, List.map_nil]
    rw [pyDict_pair2 _ _ _ _ (by decide)]
  · rw [strategyExtract,
      show (Json.obj [("opportunities", .arr (os.map .str)),
        ("recommendations", .arr (rs.map .str))]) =
      .obj (shapePairs [("opportunities", os), ("recommendations", rs)]) from rfl,
      _parse_json_shape _ (by simp)]
    simp only [shapePairs, List.map_cons, List.map_nil]
    rw [pyDict_pair2 _ _ _ _ (by decide)]
  · rw [riskExtract,
      show (Json.obj [("risks", .arr (ks.map .str)),
        ("weak_signals", .arr (ws.map .str)),
        ("uncertainties", .arr (us.map .str))]) =
      .obj (shapePairs [("risks", ks), ("weak_signals", ws),
        ("uncertainties", us)]) from rfl,
      _parse_json_shape _ (by simp)]
    simp only [shapePairs, List.map_cons, List.map_nil]
    rw [pyDict_pair3 _ _ _ _ _ _ (by decide) (by decide) (by decide)]
